import Mathlib

/-!
Shallow embedding of the radlinskii/interpreter tree-walking interpreter:
the evaluator (`evaluator/evaluator.go`), the lexer (`lexer/lexer.go`) and
the parts of the `ast`, `object` and `token` packages that they use.

Go `int64` arithmetic is modelled as `Int` together with explicit wrapping
modulo `2 ^ 64`; Go runtime panics (integer division by zero, method calls
on a nil interface value) are modelled explicitly as a `panic` outcome, and
a Go interface value that may be `nil` is modelled as an `Option`.
-/

namespace Interp

/-- Runtime objects (the `object` package; the package itself is not under
`src/`, so its shape is modelled from the evaluator's uses and the spec §3).
Go compares these values by interface (pointer) identity in a few places;
the `canonical` flag on `booleanO`/`nullO` records whether the value is one
of the three singleton allocations `TRUE`/`FALSE`/`NULL` of `evaluator.go`
(`canonical = false` stands for any other, freshly made, allocation), which
is exactly what pointer identity can distinguish for these two types. -/
inductive Object where
  | integerO (value : Int)
  | booleanO (value : Bool) (canonical : Bool)
  | nullO (canonical : Bool)
  | returnO (value : Option Object)
  | errorO (message : String)

/-- `evaluator.go` line 12: the singleton `TRUE` object. -/
def TRUE : Object := .booleanO true true

/-- `evaluator.go` line 14: the singleton `FALSE` object. -/
def FALSE : Object := .booleanO false true

/-- `evaluator.go` line 16: the singleton `NULL` object. -/
def NULL : Object := .nullO true

/-- `object.Object.Type()`: the type tag string of an object. The constants
`object.INTEGER`, ... are not under `src/`; the strings are modelled from
the spec's error-message formats (§6), e.g. `"type mismatch: INTEGER + BOOLEAN"`. -/
def objectType : Object → String
  | .integerO _ => "INTEGER"
  | .booleanO _ _ => "BOOLEAN"
  | .nullO _ => "NULL"
  | .returnO _ => "RETURN"
  | .errorO _ => "ERROR"

/-- `evaluator.go` `newError`: build an `object.Error` (the `fmt.Sprintf`
formatting is applied at each call site). -/
def newError (message : String) : Object := .errorO message

/-- `evaluator.go` `isError`: `obj != nil && obj.Type() == object.ERROR`. -/
def isError : Option Object → Bool
  | some o => objectType o == "ERROR"
  | none => false

/-- Go interface equality `left == right` on two non-nil `object.Object`
values, as used by `evalInfixExpression` for `==`/`!=`: two interface values
are equal when they carry the same pointer.  For the singleton
`Boolean`/`Null` allocations this is decided by the `canonical` flag and the
value; for any pair involving a non-singleton allocation the comparison is
modelled as `false` (the evaluator only ever reaches this comparison with
the canonical `Boolean`/`Null` singletons: integer pairs are dispatched
earlier, and `Return`/`Error` values never survive as operands). -/
def goIdEq : Object → Object → Bool
  | .booleanO v1 true, .booleanO v2 true => v1 == v2
  | .nullO true, .nullO true => true
  | _, _ => false

/-- Modulus `2 ^ 64` of Go's `int64`. -/
def two64 : Int := 18446744073709551616

/-- Half of the modulus, `2 ^ 63`. -/
def two63 : Int := 9223372036854775808

/-- Wrap an unbounded integer into the `int64` range, the way Go's
two's-complement `int64` arithmetic does. -/
def wrap64 (n : Int) : Int := (n + two63) % two64 - two63

/-- Go `int64` addition. -/
def add64 (a b : Int) : Int := wrap64 (a + b)

/-- Go `int64` subtraction. -/
def sub64 (a b : Int) : Int := wrap64 (a - b)

/-- Go `int64` multiplication. -/
def mul64 (a b : Int) : Int := wrap64 (a * b)

/-- Go `int64` negation. -/
def neg64 (a : Int) : Int := wrap64 (-a)

/-- Go `int64` division (truncated toward zero, wrapping on
`MinInt64 / -1`); the divisor is known to be nonzero at use sites. -/
def div64 (a b : Int) : Int := wrap64 (Int.tdiv a b)

/-- The message of the Go runtime panic raised by integer division by zero. -/
def divZeroMsg : String := "runtime error: integer divide by zero"

/-- The message of the Go runtime panic raised by calling a method on a nil
interface value. -/
def nilDerefMsg : String := "runtime error: invalid memory address or nil pointer dereference"

/-- The message of the Go runtime panic raised by a failed type assertion. -/
def typeAssertMsg : String := "interface conversion: object.Object is not *object.Integer"

/-- AST nodes (`ast` package; `ast.go` is under `src/` for the statement
nodes and the integer/prefix/infix expressions, the remaining expression
variants are modelled from the spec §3's closed node set).  Go's `ast.Node`
interface is one type, so all variants live in a single inductive; the
evaluator dispatches on the concrete variant exactly like the Go type
switch. `BooleanLiteral`, `BlockStatement` and `IfExpression` are used by
the evaluator under `src/` and are modelled with the fields it reads (the
spec §3 gives their shapes: an `IfExpression` holds a condition, a
consequence block and an optional alternative block). -/
inductive Node where
  | program (statements : List Node)
  | expressionStatement (expression : Node)
  | blockStatement (statements : List Node)
  | returnStatement (returnValue : Option Node)
  | varStatement (name : String) (value : Node)
  | integerLiteral (value : Int)
  | booleanLiteral (value : Bool)
  | prefixExpression (operator : String) (right : Node)
  | infixExpression (left : Node) (operator : String) (right : Node)
  | ifExpression (condition : Node) (consequence : Node) (alternative : Option Node)
  | identifier (value : String)
  | stringLiteral (value : String)
  | arrayLiteral (elements : List Node)
  | hashLiteral (pairs : List (Node × Node))
  | functionLiteral (parameters : List String) (body : List Node)
  | callExpression (function : Node) (arguments : List Node)
  | indexExpression (left : Node) (index : Node)

/-- Modelled from the spec: the `object` package's `Environment` is not
under `src/`; spec §3 and §4.3 describe it as a scope mapping names to
(possibly nil) objects plus a nullable enclosing scope pointer, lookup
walking outward, definition always writing the innermost scope.  The nullable
`outer` pointer is encoded by two constructors: `top store` is a scope with
`outer == nil`, `child store outer` a scope with a parent. -/
inductive Env where
  | top (store : List (String × Option Object))
  | child (store : List (String × Option Object)) (outer : Env)

/-- Lookup in one scope's store (a Go map read with its `ok` flag). -/
def lookupStore : List (String × Option Object) → String → Option (Option Object)
  | [], _ => none
  | (k, v) :: rest, name => if k = name then some v else lookupStore rest name

/-- Overwrite-or-insert in one scope's store (a Go map write). -/
def setStore : List (String × Option Object) → String → Option Object → List (String × Option Object)
  | [], name, v => [(name, v)]
  | (k, w) :: rest, name, v =>
    if k = name then (k, v) :: rest else (k, w) :: setStore rest name v

/-- Modelled from the spec: (§4.3) `Environment.Get` searches local
bindings, then recurses into the parent chain; `none` signals "not found"
(the `object` package is not under `src/`). -/
def Env.get : Env → String → Option (Option Object)
  | .top store, name => lookupStore store name
  | .child store outer, name =>
    match lookupStore store name with
    | some v => some v
    | none => Env.get outer name

/-- Modelled from the spec: (§4.3) `Environment.Set` writes the binding
strictly in the current (innermost) scope (the `object` package is not
under `src/`). -/
def Env.set : Env → String → Option Object → Env
  | .top store, name, v => .top (setStore store name v)
  | .child store outer, name, v => .child (setStore store name v) outer

/-- An environment with no bindings and no parent. -/
def emptyEnv : Env := .top []

/-- The outcome of one call to `Eval`: either a returned `object.Object`
(which, as in Go, may be the nil interface value, modelled `none`) together
with the environment as mutated by the call, or a Go runtime panic. -/
inductive Outcome where
  | ok (res : Option Object) (env : Env)
  | panic (msg : String)

/-- `evaluator.go` `evalBoolToBooleanObjectReference`: map a Go `bool` to
the canonical singleton object. -/
def evalBoolToBooleanObjectReference (val : Bool) : Object :=
  if val then TRUE else FALSE

/-- `evaluator.go` `evalBangOperatorExpression`: the Go `switch right`
compares the operand against the singletons by interface identity
(`case TRUE`, `case FALSE`, `case NULL`); a nil operand, a non-singleton
allocation, or anything else falls to the default case. -/
def evalBangOperatorExpression : Option Object → Object
  | some (.booleanO true true) => FALSE
  | some (.booleanO false true) => TRUE
  | some (.nullO true) => TRUE
  | _ => FALSE

/-- `evaluator.go` `isTruthy`: identity switch, `case NULL`/`case FALSE`
are falsy, `case TRUE` and the default (including a nil interface value)
are truthy. -/
def isTruthy : Option Object → Bool
  | some (.nullO true) => false
  | some (.booleanO false true) => false
  | _ => true

/-- `evaluator.go` `evalMinusPrefixOperatorExpression`: `right.Type()`
panics on a nil operand; a non-integer yields `unknown operator: -<TYPE>`;
an integer is negated with `int64` wrap-around. -/
def evalMinusPrefixOperatorExpression : Option Object → Except String Object
  | none => .error nilDerefMsg
  | some (.integerO v) => .ok (.integerO (neg64 v))
  | some r => .ok (newError ("unknown operator: -" ++ objectType r))

/-- `evaluator.go` `evalPrefixExpression`. -/
def evalPrefixExpression (operator : String) (right : Option Object) : Except String Object :=
  if operator = "!" then .ok (evalBangOperatorExpression right)
  else if operator = "-" then evalMinusPrefixOperatorExpression right
  else
    match right with
    | some r => .ok (newError ("unknown operator: " ++ operator ++ objectType r))
    | none => .error nilDerefMsg

/-- `evaluator.go` `evalIntegerInfixExpression`: both operands are asserted
to `*object.Integer` (the caller guarantees it; a failed assertion would be
a Go panic).  `/` is Go `int64` division: it panics when the divisor is
zero and otherwise truncates toward zero, wrapping on `MinInt64 / -1`. -/
def evalIntegerInfixExpression (operator : String) (left right : Object) : Except String Object :=
  match left, right with
  | .integerO leftVal, .integerO rightVal =>
    if operator = "+" then .ok (.integerO (add64 leftVal rightVal))
    else if operator = "-" then .ok (.integerO (sub64 leftVal rightVal))
    else if operator = "*" then .ok (.integerO (mul64 leftVal rightVal))
    else if operator = "/" then
      if rightVal = 0 then .error divZeroMsg
      else .ok (.integerO (div64 leftVal rightVal))
    else if operator = "<" then .ok (evalBoolToBooleanObjectReference (decide (leftVal < rightVal)))
    else if operator = ">" then .ok (evalBoolToBooleanObjectReference (decide (rightVal < leftVal)))
    else if operator = "==" then .ok (evalBoolToBooleanObjectReference (decide (leftVal = rightVal)))
    else if operator = "!=" then .ok (evalBoolToBooleanObjectReference (decide (leftVal ≠ rightVal)))
    else if operator = "<=" then .ok (evalBoolToBooleanObjectReference (decide (leftVal ≤ rightVal)))
    else if operator = ">=" then .ok (evalBoolToBooleanObjectReference (decide (rightVal ≤ leftVal)))
    else .ok (newError ("unknown operator: " ++ objectType left ++ " " ++ operator ++ " " ++ objectType right))
  | _, _ => .error typeAssertMsg

/-- `evaluator.go` `evalInfixExpression`: `left.Type()`/`right.Type()`
panic on a nil operand; otherwise dispatch exactly as the Go `switch`:
type mismatch first, then integer/integer, then identity `==`/`!=`,
then unknown operator. -/
def evalInfixExpression (operator : String) (left right : Option Object) : Except String Object :=
  match left, right with
  | some l, some r =>
    if objectType l ≠ objectType r then
      .ok (newError ("type mismatch: " ++ objectType l ++ " " ++ operator ++ " " ++ objectType r))
    else if objectType l = "INTEGER" ∧ objectType r = "INTEGER" then
      evalIntegerInfixExpression operator l r
    else if operator = "==" then
      .ok (evalBoolToBooleanObjectReference (goIdEq l r))
    else if operator = "!=" then
      .ok (evalBoolToBooleanObjectReference (!goIdEq l r))
    else
      .ok (newError ("unknown operator: " ++ objectType l ++ " " ++ operator ++ " " ++ objectType r))
  | _, _ => .error nilDerefMsg

/-- The handling of an evaluated return value in `Eval`'s
`*ast.ReturnStatement` case: propagate an error, otherwise wrap in
`object.Return`. -/
def handleReturnValue : Outcome → Outcome
  | .panic m => .panic m
  | .ok val env =>
    if isError val then .ok val env
    else .ok (some (.returnO val)) env

mutual

/-- `evaluator.go` `Eval`: the type switch over the AST node.  Variants
without a case (the string/array/hash/function/call/index expressions of
the spec's closed node set) hit the Go `default:` branch and return the nil
interface value.  The Go environment is mutated in place; here it is
threaded through and returned alongside the result. -/
def goEval : Node → Env → Outcome
  | .program stmts, env => evalProgramLoop stmts none env
  | .expressionStatement e, env => goEval e env
  | .blockStatement stmts, env => evalBlockLoop stmts none env
  | .returnStatement (some e), env => handleReturnValue (goEval e env)
  | .returnStatement none, env => .ok (some (.returnO none)) env
  | .varStatement name value, env =>
    match goEval value env with
    | .panic m => .panic m
    | .ok val env1 =>
      if isError val then .ok val env1
      else .ok val (env1.set name val)
  | .integerLiteral v, env => .ok (some (.integerO v)) env
  | .booleanLiteral b, env => .ok (some (evalBoolToBooleanObjectReference b)) env
  | .prefixExpression op right, env =>
    match goEval right env with
    | .panic m => .panic m
    | .ok r env1 =>
      if isError r then .ok r env1
      else
        match evalPrefixExpression op r with
        | .error m => .panic m
        | .ok o => .ok (some o) env1
  | .infixExpression left op right, env =>
    match goEval left env with
    | .panic m => .panic m
    | .ok l env1 =>
      if isError l then .ok l env1
      else
        match goEval right env1 with
        | .panic m => .panic m
        | .ok r env2 =>
          if isError r then .ok r env2
          else
            match evalInfixExpression op l r with
            | .error m => .panic m
            | .ok o => .ok (some o) env2
  | .ifExpression cond cons (some a), env =>
    match goEval cond env with
    | .panic m => .panic m
    | .ok c env1 =>
      if isError c then .ok c env1
      else if isTruthy c then goEval cons env1
      else goEval a env1
  | .ifExpression cond cons none, env =>
    match goEval cond env with
    | .panic m => .panic m
    | .ok c env1 =>
      if isError c then .ok c env1
      else if isTruthy c then goEval cons env1
      else .ok (some NULL) env1
  | .identifier name, env =>
    match env.get name with
    | some val => .ok val env
    | none => .ok (some (newError ("unknown identifier: " ++ name))) env
  | .stringLiteral _, env => .ok none env
  | .arrayLiteral _, env => .ok none env
  | .hashLiteral _, env => .ok none env
  | .functionLiteral _ _, env => .ok none env
  | .callExpression _ _, env => .ok none env
  | .indexExpression _ _, env => .ok none env
termination_by n _ => sizeOf n

/-- `evaluator.go` `evalProgram`: evaluate statements in order, keeping the
last result; a `*object.Return` makes the whole program yield its wrapped
value at once, a `*object.Error` is yielded as is. -/
def evalProgramLoop : List Node → Option Object → Env → Outcome
  | [], result, env => .ok result env
  | stmnt :: rest, _, env =>
    match goEval stmnt env with
    | .panic m => .panic m
    | .ok result env1 =>
      match result with
      | some (.returnO v) => .ok v env1
      | some (.errorO m) => .ok (some (.errorO m)) env1
      | _ => evalProgramLoop rest result env1
termination_by l _ _ => sizeOf l

/-- `evaluator.go` `evalBlockStatement`: evaluate statements in order,
keeping the last result; a non-nil result whose type is `RETURN` or `ERROR`
is yielded to the caller unmodified. -/
def evalBlockLoop : List Node → Option Object → Env → Outcome
  | [], result, env => .ok result env
  | stmnt :: rest, _, env =>
    match goEval stmnt env with
    | .panic m => .panic m
    | .ok result env1 =>
      match result with
      | some r =>
        if objectType r = "RETURN" ∨ objectType r = "ERROR" then .ok (some r) env1
        else evalBlockLoop rest (some r) env1
      | none => evalBlockLoop rest none env1
termination_by l _ _ => sizeOf l

end

/-- An object containing no `Return` wrapper around the nil interface
value (such a wrapper only arises from a bare `return;`). -/
def noNilReturn : Object → Bool
  | .returnO none => false
  | .returnO (some v) => noNilReturn v
  | _ => true

/-- A binding value that is a non-nil object with no nil-payload `Return`
wrapper inside. -/
def okVal : Option Object → Bool
  | some o => noNilReturn o
  | none => false

mutual

/-- The nodes on which the evaluator's type switch is total and
panic-free: the handled variants only, every `Program`/`BlockStatement`
statement list non-empty, every `ReturnStatement` carrying a value, and no
`/` operator (whose evaluation can hit Go's division-by-zero panic). -/
def wfB : Node → Bool
  | .program stmts => !stmts.isEmpty && wfListB stmts
  | .expressionStatement e => wfB e
  | .blockStatement stmts => !stmts.isEmpty && wfListB stmts
  | .returnStatement (some e) => wfB e
  | .returnStatement none => false
  | .varStatement _ value => wfB value
  | .integerLiteral _ => true
  | .booleanLiteral _ => true
  | .prefixExpression _ right => wfB right
  | .infixExpression l op r => !(op == "/") && wfB l && wfB r
  | .ifExpression c cons alt => wfB c && wfB cons && wfOptB alt
  | .identifier _ => true
  | .stringLiteral _ => false
  | .arrayLiteral _ => false
  | .hashLiteral _ => false
  | .functionLiteral _ _ => false
  | .callExpression _ _ => false
  | .indexExpression _ _ => false

/-- `wfB` on every element of a statement list. -/
def wfListB : List Node → Bool
  | [] => true
  | s :: rest => wfB s && wfListB rest

/-- `wfB` on an optional node. -/
def wfOptB : Option Node → Bool
  | some a => wfB a
  | none => true

end

/-- A scope store whose every binding satisfies `okVal`. -/
def storeOk : List (String × Option Object) → Bool
  | [] => true
  | (_, v) :: rest => okVal v && storeOk rest

/-- An environment chain whose every binding satisfies `okVal`. -/
def envOk : Env → Bool
  | .top store => storeOk store
  | .child store outer => storeOk store && envOk outer

/-- Every `Boolean`/`Null` occurring in an object (also inside a `Return`
wrapper) is one of the canonical singleton allocations. -/
def canonO : Object → Bool
  | .booleanO _ c => c
  | .nullO c => c
  | .returnO (some v) => canonO v
  | .returnO none => true
  | .integerO _ => true
  | .errorO _ => true

/-- `canonO` on a possibly-nil object. -/
def canonOpt : Option Object → Bool
  | some o => canonO o
  | none => true

/-- `canonOpt` on every binding of a scope store. -/
def storeCanon : List (String × Option Object) → Bool
  | [] => true
  | (_, v) :: rest => canonOpt v && storeCanon rest

/-- `storeCanon` on every scope of an environment chain. -/
def envCanon : Env → Bool
  | .top store => storeCanon store
  | .child store outer => storeCanon store && envCanon outer

/-- `Threads stmts env env'` holds when evaluating `stmts` in order from
`env` panics nowhere, produces neither a `Return` nor an `Error` object at
any statement, and ends with environment `env'` (the run "threads through"
the whole list). -/
inductive Threads : List Node → Env → Env → Prop where
  | nil (env : Env) : Threads [] env env
  | cons {s : Node} {rest : List Node} {env env1 env2 : Env} {r : Option Object}
      (heval : goEval s env = .ok r env1)
      (hret : ∀ v, r ≠ some (.returnO v))
      (herr : ∀ m, r ≠ some (.errorO m))
      (hrest : Threads rest env1 env2) :
      Threads (s :: rest) env env2

/-- The `int64` range. -/
def int64Range (n : Int) : Prop := -two63 ≤ n ∧ n < two63

end Interp

namespace Lex

/-! Characters are written via `Char.ofNat` codes. -/

def charNull : Char := Char.ofNat 0
def charTab : Char := Char.ofNat 9
def charNL : Char := Char.ofNat 10
def charCR : Char := Char.ofNat 13
def charSpace : Char := Char.ofNat 32
def charBang : Char := Char.ofNat 33
def charQuote : Char := Char.ofNat 34
def charLParen : Char := Char.ofNat 40
def charRParen : Char := Char.ofNat 41
def charStar : Char := Char.ofNat 42
def charPlus : Char := Char.ofNat 43
def charComma : Char := Char.ofNat 44
def charMinus : Char := Char.ofNat 45
def charSlash : Char := Char.ofNat 47
def charColon : Char := Char.ofNat 58
def charSemicolon : Char := Char.ofNat 59
def charLt : Char := Char.ofNat 60
def charEq : Char := Char.ofNat 61
def charGt : Char := Char.ofNat 62
def charLBracket : Char := Char.ofNat 91
def charRBracket : Char := Char.ofNat 93
def charLBrace : Char := Char.ofNat 123
def charRBrace : Char := Char.ofNat 125

/-- A token: kind, literal text and source line number (`token.Token` of
the `token` package, whose fields are read throughout `lexer.go` and its
tests). -/
structure Token where
  type : String
  literal : String
  lineNumber : Nat
deriving DecidableEq

namespace token

/-- Modelled from the spec: the `token` package's kind constants are not
under `src/`; only their distinctness matters (spec §6 calls out dedicated
end-of-stream and "illegal" kinds), so each kind is its own name as a
string.  The set of kinds is the one used by `lexer.go` and its tests. -/
def ILLEGAL : String := "ILLEGAL"
def EOF : String := "EOF"
def IDENT : String := "IDENT"
def INT : String := "INT"
def STRING : String := "STRING"
def ASSIGN : String := "ASSIGN"
def PLUS : String := "PLUS"
def MINUS : String := "MINUS"
def BANG : String := "BANG"
def ASTERISK : String := "ASTERISK"
def SLASH : String := "SLASH"
def LT : String := "LT"
def GT : String := "GT"
def LTE : String := "LTE"
def GTE : String := "GTE"
def EQ : String := "EQ"
def NEQ : String := "NEQ"
def COMMA : String := "COMMA"
def SEMICOLON : String := "SEMICOLON"
def COLON : String := "COLON"
def LPAREN : String := "LPAREN"
def RPAREN : String := "RPAREN"
def LBRACE : String := "LBRACE"
def RBRACE : String := "RBRACE"
def LBRACKET : String := "LBRACKET"
def RBRACKET : String := "RBRACKET"
def FUNCTION : String := "FUNCTION"
def CONST : String := "CONST"
def BOOLEAN : String := "BOOLEAN"
def IF : String := "IF"
def ELSE : String := "ELSE"
def RETURN : String := "RETURN"

end token

/-- The lexer state. -/
structure Lexer where
  input : List Char
  position : Nat
  rowNum : Nat
deriving DecidableEq

/-- The current character. -/
def Lexer.ch (l : Lexer) : Char := l.input.getD l.position charNull

/-- `peekChar`. -/
def Lexer.peekChar (l : Lexer) : Char := l.input.getD (l.position + 1) charNull

/-- `readChar`. -/
def Lexer.readChar (l : Lexer) : Lexer := { l with position := l.position + 1 }

/-- `l.RowNum++`. -/
def Lexer.incRow (l : Lexer) : Lexer := { l with rowNum := l.rowNum + 1 }

/-- `lexer.New`. -/
def lexerNew (input : List Char) : Lexer := { input := input, position := 0, rowNum := 1 }

def isLetter (ch : Char) : Bool :=
  (97 ≤ ch.toNat && ch.toNat ≤ 122) || (65 ≤ ch.toNat && ch.toNat ≤ 90) || ch.toNat == 95

def isDigit (ch : Char) : Bool := 48 ≤ ch.toNat && ch.toNat ≤ 57

def newToken (tokenType : String) (ch : Char) (lineNum : Nat) : Token :=
  { type := tokenType, literal := String.mk [ch], lineNumber := lineNum }

/-- Modelled from the spec: `token.LookUpIdent` is not under `src/`; the
keyword table is pinned by the lexer tests in `src` (`const` → CONST,
`fun` → FUNCTION, `true`/`false` → BOOLEAN, `if` → IF, `else` → ELSE,
`return` → RETURN) and every other word is an identifier. -/
def LookUpIdent (s : String) : String :=
  if s = "fun" then token.FUNCTION
  else if s = "const" then token.CONST
  else if s = "true" ∨ s = "false" then token.BOOLEAN
  else if s = "if" then token.IF
  else if s = "else" then token.ELSE
  else if s = "return" then token.RETURN
  else token.IDENT

def pos_lt_of_ch (l : Lexer) (h : l.ch ≠ charNull) : l.position < l.input.length := by
  by_contra hge
  exact h (show l.ch = charNull from List.getD_eq_default _ _ (by omega))

def skipWhitespace (l : Lexer) : Lexer :=
  if h : l.ch = charSpace ∨ l.ch = charTab ∨ l.ch = charNL ∨ l.ch = charCR then
    skipWhitespace
      { l with
        position := l.position + 1
        rowNum := (if l.ch = charNL ∨ l.ch = charCR then l.rowNum + 1 else l.rowNum) }
  else l
termination_by l.input.length - l.position
decreasing_by
  simp_wf
  have hlt : l.position < l.input.length := by
    refine pos_lt_of_ch l fun he => ?_
    rw [he] at h
    rcases h with h | h | h | h <;> exact absurd h (by decide)
  omega

def skipWhitespace_inv (l : Lexer) :
    (skipWhitespace l).input = l.input ∧ l.position ≤ (skipWhitespace l).position := by
  induction l using skipWhitespace.induct with
  | case1 l h ih =>
    rw [skipWhitespace, dif_pos h]
    exact ⟨ih.1.trans rfl, le_trans (Nat.le_succ _) ih.2⟩
  | case2 l h => rw [skipWhitespace, dif_neg h]; exact ⟨rfl, le_refl _⟩

def skipWhitespace_id (l : Lexer)
    (h : ¬(l.ch = charSpace ∨ l.ch = charTab ∨ l.ch = charNL ∨ l.ch = charCR)) :
    skipWhitespace l = l := by
  rw [skipWhitespace, dif_neg h]

def skipOneLineComment (l : Lexer) : Lexer :=
  if h : l.ch ≠ charNL ∧ l.ch ≠ charCR ∧ l.ch ≠ charNull then skipOneLineComment l.readChar
  else l
termination_by l.input.length - l.position
decreasing_by
  have hlt : l.position < l.input.length := pos_lt_of_ch l h.2.2
  simp only [Lexer.readChar]
  omega

def skipOneLineComment_inv (l : Lexer) :
    (skipOneLineComment l).input = l.input ∧ l.position ≤ (skipOneLineComment l).position := by
  induction l using skipOneLineComment.induct with
  | case1 l h ih =>
    rw [skipOneLineComment, dif_pos h]
    exact ⟨ih.1.trans rfl, le_trans (Nat.le_succ _) ih.2⟩
  | case2 l h => rw [skipOneLineComment, dif_neg h]; exact ⟨rfl, le_refl _⟩

def skipOneLineComment_adv (l : Lexer)
    (h : l.ch ≠ charNL ∧ l.ch ≠ charCR ∧ l.ch ≠ charNull) :
    l.position < (skipOneLineComment l).position := by
  rw [skipOneLineComment, dif_pos h]
  exact lt_of_lt_of_le (Nat.lt_succ_self _) (skipOneLineComment_inv l.readChar).2


def readIdentLoop (l : Lexer) : Lexer :=
  if h : isLetter l.ch then readIdentLoop l.readChar else l
termination_by l.input.length - l.position
decreasing_by
  simp_wf
  have hlt : l.position < l.input.length := by
    refine pos_lt_of_ch l fun he => ?_
    rw [he] at h
    exact absurd h (by decide)
  simp only [Lexer.readChar]
  omega

def sliceStr (input : List Char) (a b : Nat) : String :=
  String.mk ((input.drop a).take (b - a))

def readIdent (l : Lexer) : String × Lexer :=
  (sliceStr l.input l.position (readIdentLoop l).position, readIdentLoop l)

def readNumberLoop (l : Lexer) : Lexer :=
  if h : isDigit l.ch then readNumberLoop l.readChar else l
termination_by l.input.length - l.position
decreasing_by
  simp_wf
  have hlt : l.position < l.input.length := by
    refine pos_lt_of_ch l fun he => ?_
    rw [he] at h
    exact absurd h (by decide)
  simp only [Lexer.readChar]
  omega

def readNumber (l : Lexer) : String × Lexer :=
  (sliceStr l.input l.position (readNumberLoop l).position, readNumberLoop l)

def readStringLoop (start : Nat) (l : Lexer) : Token × Lexer :=
  if l.readChar.ch = charQuote then
    ({ type := token.STRING
       literal := sliceStr l.readChar.readChar.input start (l.readChar.readChar.position - 1)
       lineNumber := l.readChar.readChar.rowNum }, l.readChar.readChar)
  else if h : l.readChar.ch = charNull then
    ({ type := token.ILLEGAL
       literal := "FATAL ERROR: string literal not terminated at line: " ++
         toString l.readChar.rowNum ++ "\n\n"
       lineNumber := l.readChar.rowNum }, l.readChar)
  else readStringLoop start l.readChar
termination_by l.input.length + 1 - l.position
decreasing_by
  simp_wf
  have hlt : l.readChar.position < l.readChar.input.length := pos_lt_of_ch l.readChar h
  simp only [Lexer.readChar] at hlt ⊢
  omega

def readString (l : Lexer) : Token × Lexer := readStringLoop (l.position + 1) l

mutual

def nextToken (l0 : Lexer) : Token × Lexer :=
  let l := skipWhitespace l0
  if l.ch = charEq then
    if l.peekChar = charEq then
      ({ type := token.EQ, literal := "==", lineNumber := l.readChar.rowNum }, l.readChar.readChar)
    else (newToken token.ASSIGN l.ch l.rowNum, l.readChar)
  else if l.ch = charPlus then (newToken token.PLUS l.ch l.rowNum, l.readChar)
  else if l.ch = charMinus then (newToken token.MINUS l.ch l.rowNum, l.readChar)
  else if l.ch = charBang then
    if l.peekChar = charEq then
      ({ type := token.NEQ, literal := "!=", lineNumber := l.readChar.rowNum }, l.readChar.readChar)
    else (newToken token.BANG l.ch l.rowNum, l.readChar)
  else if l.ch = charStar then (newToken token.ASTERISK l.ch l.rowNum, l.readChar)
  else if h5 : l.ch = charSlash then
    if l.peekChar = charSlash then nextToken (skipOneLineComment l)
    else if l.peekChar = charStar then skipMultipleLineComment l
    else (newToken token.SLASH l.ch l.rowNum, l.readChar)
  else if l.ch = charLt then
    if l.peekChar = charEq then
      ({ type := token.LTE, literal := "<=", lineNumber := l.readChar.rowNum }, l.readChar.readChar)
    else (newToken token.LT l.ch l.rowNum, l.readChar)
  else if l.ch = charGt then
    if l.peekChar = charEq then
      ({ type := token.GTE, literal := ">=", lineNumber := l.readChar.rowNum }, l.readChar.readChar)
    else (newToken token.GT l.ch l.rowNum, l.readChar)
  else if l.ch = charComma then (newToken token.COMMA l.ch l.rowNum, l.readChar)
  else if l.ch = charSemicolon then (newToken token.SEMICOLON l.ch l.rowNum, l.readChar)
  else if l.ch = charLParen then (newToken token.LPAREN l.ch l.rowNum, l.readChar)
  else if l.ch = charRParen then (newToken token.RPAREN l.ch l.rowNum, l.readChar)
  else if l.ch = charLBrace then (newToken token.LBRACE l.ch l.rowNum, l.readChar)
  else if l.ch = charRBrace then (newToken token.RBRACE l.ch l.rowNum, l.readChar)
  else if l.ch = charLBracket then (newToken token.LBRACKET l.ch l.rowNum, l.readChar)
  else if l.ch = charRBracket then (newToken token.RBRACKET l.ch l.rowNum, l.readChar)
  else if l.ch = charColon then (newToken token.COLON l.ch l.rowNum, l.readChar)
  else if l.ch = charQuote then readString l
  else if l.ch = charNull then
    ({ type := token.EOF, literal := "", lineNumber := l.rowNum }, l.readChar)
  else if isLetter l.ch then
    ({ type := LookUpIdent (readIdent l).1, literal := (readIdent l).1
       lineNumber := (readIdent l).2.rowNum }, (readIdent l).2)
  else if isDigit l.ch then
    ({ type := token.INT, literal := (readNumber l).1
       lineNumber := (readNumber l).2.rowNum }, (readNumber l).2)
  else
    ({ type := token.ILLEGAL
       literal := "FATAL ERROR: illegal character: " ++ String.mk [l.ch] ++ " at line: " ++
         toString l.rowNum ++ "\n\n"
       lineNumber := l.rowNum }, l.readChar)
termination_by (l0.input.length + 2 - l0.position, 2)
decreasing_by
  all_goals
    first
    | decreasing_tactic
    | · have hin0 : (skipWhitespace l0).input = l0.input := (skipWhitespace_inv l0).1
        have hp0 : l0.position ≤ (skipWhitespace l0).position := (skipWhitespace_inv l0).2
        have hslash : (skipWhitespace l0).ch = charSlash := h5
        have hadv : (skipWhitespace l0).position <
            (skipOneLineComment (skipWhitespace l0)).position :=
          skipOneLineComment_adv _ (by rw [hslash]; exact ⟨by decide, by decide, by decide⟩)
        have hlt : (skipWhitespace l0).position < (skipWhitespace l0).input.length :=
          pos_lt_of_ch _ (by rw [hslash]; decide)
        have hin1 : (skipOneLineComment (skipWhitespace l0)).input =
            (skipWhitespace l0).input := (skipOneLineComment_inv _).1
        rw [hin1, hin0]
        rw [hin0] at hlt
        exact Prod.Lex.left _ _ (by omega)
    | · have hin0 : (skipWhitespace l0).input = l0.input := (skipWhitespace_inv l0).1
        have hp0 : l0.position ≤ (skipWhitespace l0).position := (skipWhitespace_inv l0).2
        rw [hin0]
        rcases Nat.lt_or_ge (l0.input.length + 2 - (skipWhitespace l0).position)
          (l0.input.length + 2 - l0.position) with hlt | hge
        · exact Prod.Lex.left _ _ hlt
        · have heq : l0.input.length + 2 - (skipWhitespace l0).position =
              l0.input.length + 2 - l0.position := by omega
          rw [heq]
          exact Prod.Lex.right _ (by omega)

def skipMultipleLineComment (l : Lexer) : Token × Lexer :=
  skipMultiLoop l.readChar.readChar
termination_by (l.input.length + 2 - l.position, 1)
decreasing_by
  show Prod.Lex (· < ·) (· < ·)
    (l.input.length + 2 - (l.position + 1 + 1), 0) (l.input.length + 2 - l.position, 1)
  rcases Nat.lt_or_ge (l.input.length + 2 - (l.position + 1 + 1))
    (l.input.length + 2 - l.position) with hlt | hge
  · exact Prod.Lex.left _ _ hlt
  · have heq : l.input.length + 2 - (l.position + 1 + 1) =
        l.input.length + 2 - l.position := by omega
    rw [heq]
    exact Prod.Lex.right _ (by omega)

def skipMultiLoop (l : Lexer) : Token × Lexer :=
  if h0 : l.ch = charNull then
    ({ type := token.ILLEGAL
       literal := "FATAL ERROR: comment not terminated at line: " ++ toString l.rowNum ++ "\n\n"
       lineNumber := l.rowNum }, l)
  else if h1 : l.ch = charStar ∧ l.peekChar = charSlash then
    nextToken l.readChar.readChar
  else
    skipMultiLoop
      { l with
        position := l.position + 1
        rowNum := (if l.ch = charNL ∨ l.ch = charCR then l.rowNum + 1 else l.rowNum) }
termination_by (l.input.length + 2 - l.position, 0)
decreasing_by
  · have hlt : l.position < l.input.length := pos_lt_of_ch l h0
    exact Prod.Lex.left _ _ (show l.input.length + 2 - (l.position + 1 + 1) <
      l.input.length + 2 - l.position by omega)
  · have hlt : l.position < l.input.length := pos_lt_of_ch l h0
    exact Prod.Lex.left _ _ (show l.input.length + 2 - (l.position + 1) <
      l.input.length + 2 - l.position by omega)

end

/-- Whether the character list still contains a closing sequence of a block
comment (a `*` immediately followed by `/`, at any adjacent pair). -/
def hasClose : List Char → Bool
  | c1 :: c2 :: rest => (c1 == charStar && c2 == charSlash) || hasClose (c2 :: rest)
  | _ => false

/-- The number of line-break characters (newline or carriage return) in a
character list — exactly the increments `skipMultipleLineComment` applies
to `RowNum` while scanning. -/
def countNL : List Char → Nat
  | [] => 0
  | c :: rest => (if c = charNL ∨ c = charCR then 1 else 0) + countNL rest

end Lex

namespace Interp

/-! Helper lemmas about the embedded definitions. -/

theorem evalBang_canonical (x : Option Object) :
    evalBangOperatorExpression x = TRUE ∨ evalBangOperatorExpression x = FALSE := by
  unfold evalBangOperatorExpression
  split
  · right; rfl
  · left; rfl
  · left; rfl
  · right; rfl

theorem noNilReturn_boolRef (b : Bool) :
    noNilReturn (evalBoolToBooleanObjectReference b) = true := by cases b <;> rfl

theorem noNilReturn_bang (x : Option Object) :
    noNilReturn (evalBangOperatorExpression x) = true := by
  rcases evalBang_canonical x with h | h <;> rw [h] <;> rfl

theorem evalPrefix_some_ok (op : String) (o : Object) :
    ∃ o', evalPrefixExpression op (some o) = .ok o' ∧ noNilReturn o' = true := by
  unfold evalPrefixExpression
  split_ifs with h1 h2
  · exact ⟨_, rfl, noNilReturn_bang _⟩
  · cases o <;> exact ⟨_, rfl, rfl⟩
  · exact ⟨_, rfl, rfl⟩

theorem evalIntegerInfix_ok (op : String) (a b : Int) (hop : op ≠ "/") :
    ∃ o, evalIntegerInfixExpression op (.integerO a) (.integerO b) = .ok o ∧
      noNilReturn o = true := by
  unfold evalIntegerInfixExpression
  split_ifs <;>
    first
      | exact absurd (by assumption : op = "/") hop
      | exact ⟨_, rfl, rfl⟩
      | exact ⟨_, rfl, noNilReturn_boolRef _⟩

theorem objectType_integer {o : Object} (h : objectType o = "INTEGER") :
    ∃ n, o = .integerO n := by
  cases o <;> simp_all [objectType]

theorem evalInfix_some_ok (op : String) (lo ro : Object) (hop : op ≠ "/") :
    ∃ o, evalInfixExpression op (some lo) (some ro) = .ok o ∧ noNilReturn o = true := by
  simp only [evalInfixExpression]
  split_ifs with h1 h2 h3 h4
  · exact ⟨_, rfl, rfl⟩
  · obtain ⟨n1, hn1⟩ := objectType_integer h2.1
    obtain ⟨n2, hn2⟩ := objectType_integer h2.2
    subst hn1; subst hn2
    exact evalIntegerInfix_ok op n1 n2 hop
  · exact ⟨_, rfl, noNilReturn_boolRef _⟩
  · exact ⟨_, rfl, noNilReturn_boolRef _⟩
  · exact ⟨_, rfl, rfl⟩

theorem lookupStore_okVal {store : List (String × Option Object)} (h : storeOk store = true)
    {name : String} {v : Option Object} (hl : lookupStore store name = some v) :
    okVal v = true := by
  induction store with
  | nil => simp [lookupStore] at hl
  | cons p rest ih =>
    obtain ⟨k, w⟩ := p
    simp [storeOk] at h
    simp [lookupStore] at hl
    split at hl
    · cases hl; exact h.1
    · exact ih h.2 hl

theorem envOk_get {env : Env} (h : envOk env = true) {name : String} {v : Option Object}
    (hg : env.get name = some v) : okVal v = true := by
  induction env with
  | top store => exact lookupStore_okVal (by simpa [envOk] using h) (by simpa [Env.get] using hg)
  | child store outer ih =>
    simp only [envOk, Bool.and_eq_true] at h
    simp only [Env.get] at hg
    split at hg
    · cases hg; exact lookupStore_okVal h.1 (by assumption)
    · exact ih h.2 hg

theorem setStore_ok {store : List (String × Option Object)} (h : storeOk store = true)
    {v : Option Object} (hv : okVal v = true) (name : String) :
    storeOk (setStore store name v) = true := by
  induction store with
  | nil => simp [setStore, storeOk, hv]
  | cons p rest ih =>
    obtain ⟨k, w⟩ := p
    simp [storeOk] at h
    simp only [setStore]
    split
    · simp [storeOk, hv, h.2]
    · simp [storeOk, h.1, ih h.2]

theorem envOk_set {env : Env} (h : envOk env = true) {v : Option Object}
    (hv : okVal v = true) (name : String) : envOk (env.set name v) = true := by
  cases env with
  | top store => simpa [Env.set, envOk] using setStore_ok (by simpa [envOk] using h) hv name
  | child store outer =>
    simp only [envOk, Bool.and_eq_true] at h
    simp [Env.set, envOk, setStore_ok h.1 hv name, h.2]

theorem canonO_boolRef (b : Bool) : canonO (evalBoolToBooleanObjectReference b) = true := by
  cases b <;> rfl

theorem canonO_bang (x : Option Object) : canonO (evalBangOperatorExpression x) = true := by
  rcases evalBang_canonical x with h | h <;> rw [h] <;> rfl

theorem canonO_returnO (val : Option Object) : canonO (.returnO val) = canonOpt val := by
  cases val <;> rfl

theorem canonO_prefix {op : String} {x : Option Object} {o : Object}
    (h : evalPrefixExpression op x = .ok o) : canonO o = true := by
  unfold evalPrefixExpression at h
  split_ifs at h with h1 h2
  · cases h; exact canonO_bang x
  · cases x with
    | none => simp [evalMinusPrefixOperatorExpression] at h
    | some r => cases r <;> simp [evalMinusPrefixOperatorExpression] at h <;> cases h <;> rfl
  · cases x with
    | none => simp at h
    | some r => cases h; rfl

set_option maxHeartbeats 1000000 in
theorem canonO_integerInfix {op : String} {a b : Int} {o : Object}
    (h : evalIntegerInfixExpression op (.integerO a) (.integerO b) = .ok o) :
    canonO o = true := by
  unfold evalIntegerInfixExpression at h
  dsimp only at h
  split_ifs at h with h1 h2 h3 h4 h5 h6 h7 h8 h9 h10 h11
  · cases h; rfl
  · cases h; rfl
  · cases h; rfl
  · cases h; rfl
  · cases h; exact canonO_boolRef _
  · cases h; exact canonO_boolRef _
  · cases h; exact canonO_boolRef _
  · cases h; exact canonO_boolRef _
  · cases h; exact canonO_boolRef _
  · cases h; exact canonO_boolRef _
  · cases h; rfl

theorem canonO_infix {op : String} {x y : Option Object} {o : Object}
    (h : evalInfixExpression op x y = .ok o) : canonO o = true := by
  cases x with
  | none => simp [evalInfixExpression] at h
  | some l =>
    cases y with
    | none => simp [evalInfixExpression] at h
    | some r =>
      simp only [evalInfixExpression] at h
      split_ifs at h with h1 h2 h3 h4
      · cases h; rfl
      · obtain ⟨n1, hn1⟩ := objectType_integer h2.1
        obtain ⟨n2, hn2⟩ := objectType_integer h2.2
        subst hn1; subst hn2
        exact canonO_integerInfix h
      · cases h; exact canonO_boolRef _
      · cases h; exact canonO_boolRef _
      · cases h; rfl

theorem lookupStore_canon {store : List (String × Option Object)} (h : storeCanon store = true)
    {name : String} {v : Option Object} (hl : lookupStore store name = some v) :
    canonOpt v = true := by
  induction store with
  | nil => simp [lookupStore] at hl
  | cons p rest ih =>
    obtain ⟨k, w⟩ := p
    simp [storeCanon] at h
    simp [lookupStore] at hl
    split at hl
    · cases hl; exact h.1
    · exact ih h.2 hl

theorem envCanon_get {env : Env} (h : envCanon env = true) {name : String} {v : Option Object}
    (hg : env.get name = some v) : canonOpt v = true := by
  induction env with
  | top store => exact lookupStore_canon (by simpa [envCanon] using h) (by simpa [Env.get] using hg)
  | child store outer ih =>
    simp only [envCanon, Bool.and_eq_true] at h
    simp only [Env.get] at hg
    split at hg
    · cases hg; exact lookupStore_canon h.1 (by assumption)
    · exact ih h.2 hg

theorem setStore_canon {store : List (String × Option Object)} (h : storeCanon store = true)
    {v : Option Object} (hv : canonOpt v = true) (name : String) :
    storeCanon (setStore store name v) = true := by
  induction store with
  | nil => simp [setStore, storeCanon, hv]
  | cons p rest ih =>
    obtain ⟨k, w⟩ := p
    simp [storeCanon] at h
    simp only [setStore]
    split
    · simp [storeCanon, hv, h.2]
    · simp [storeCanon, h.1, ih h.2]

theorem envCanon_set {env : Env} (h : envCanon env = true) {v : Option Object}
    (hv : canonOpt v = true) (name : String) : envCanon (env.set name v) = true := by
  cases env with
  | top store =>
    simpa [Env.set, envCanon] using setStore_canon (by simpa [envCanon] using h) hv name
  | child store outer =>
    simp only [envCanon, Bool.and_eq_true] at h
    simp [Env.set, envCanon, setStore_canon h.1 hv name, h.2]


theorem evalWfAux : ∀ N : Nat,
    (∀ (n : Node) (env : Env), sizeOf n < N → wfB n = true → envOk env = true →
       ∃ obj env', goEval n env = .ok (some obj) env' ∧ envOk env' = true ∧ noNilReturn obj = true) ∧
    (∀ (l : List Node) (acc : Option Object) (env : Env), sizeOf l < N → l ≠ [] →
       wfListB l = true → envOk env = true →
       (∃ obj env', evalProgramLoop l acc env = .ok (some obj) env' ∧ envOk env' = true ∧
          noNilReturn obj = true) ∧
       (∃ obj env', evalBlockLoop l acc env = .ok (some obj) env' ∧ envOk env' = true ∧
          noNilReturn obj = true)) := by
  intro N
  induction N using Nat.strong_induction_on with
  | _ N ih =>
    constructor
    · intro n env hsz hwf henv
      cases n with
      | program stmts =>
        simp only [wfB, Bool.and_eq_true, Bool.not_eq_eq_eq_not, Bool.not_true,
          List.isEmpty_eq_false] at hwf
        have hlt : sizeOf stmts < sizeOf (Node.program stmts) := by simp <;> omega
        exact ((ih _ hsz).2 stmts none env hlt hwf.1 hwf.2 henv).1.imp
          (fun obj h => h.imp fun env' h => ⟨by simpa [goEval] using h.1, h.2⟩)
      | expressionStatement e =>
        simp only [wfB] at hwf
        have hlt : sizeOf e < sizeOf (Node.expressionStatement e) := by simp <;> omega
        exact ((ih _ hsz).1 e env hlt hwf henv).imp
          (fun obj h => h.imp fun env' h => ⟨by simpa [goEval] using h.1, h.2⟩)
      | blockStatement stmts =>
        simp only [wfB, Bool.and_eq_true, Bool.not_eq_eq_eq_not, Bool.not_true,
          List.isEmpty_eq_false] at hwf
        have hlt : sizeOf stmts < sizeOf (Node.blockStatement stmts) := by simp <;> omega
        exact ((ih _ hsz).2 stmts none env hlt hwf.1 hwf.2 henv).2.imp
          (fun obj h => h.imp fun env' h => ⟨by simpa [goEval] using h.1, h.2⟩)
      | returnStatement rv =>
        cases rv with
        | none => simp [wfB] at hwf
        | some e =>
          simp only [wfB] at hwf
          have hlt : sizeOf e < sizeOf (Node.returnStatement (some e)) := by simp <;> omega
          obtain ⟨obj, env', heval, henv', hnnr⟩ := (ih _ hsz).1 e env hlt hwf henv
          by_cases hE : isError (some obj) = true
          · exact ⟨obj, env', by simp [goEval, handleReturnValue, heval, hE], henv', hnnr⟩
          · refine ⟨.returnO (some obj), env', ?_, henv', by simpa [noNilReturn] using hnnr⟩
            simp [goEval, handleReturnValue, heval, hE]
      | varStatement name value =>
        simp only [wfB] at hwf
        have hlt : sizeOf value < sizeOf (Node.varStatement name value) := by simp <;> omega
        obtain ⟨obj, env', heval, henv', hnnr⟩ := (ih _ hsz).1 value env hlt hwf henv
        by_cases hE : isError (some obj) = true
        · exact ⟨obj, env', by simp [goEval, heval, hE], henv', hnnr⟩
        · refine ⟨obj, env'.set name (some obj), ?_, envOk_set henv' (by simpa [okVal] using hnnr) name, hnnr⟩
          simp [goEval, heval, hE]
      | integerLiteral v => exact ⟨.integerO v, env, by simp [goEval], henv, rfl⟩
      | booleanLiteral b =>
        exact ⟨evalBoolToBooleanObjectReference b, env, by simp [goEval], henv, noNilReturn_boolRef b⟩
      | prefixExpression op right =>
        simp only [wfB] at hwf
        have hlt : sizeOf right < sizeOf (Node.prefixExpression op right) := by simp <;> omega
        obtain ⟨obj, env', heval, henv', hnnr⟩ := (ih _ hsz).1 right env hlt hwf henv
        by_cases hE : isError (some obj) = true
        · exact ⟨obj, env', by simp [goEval, heval, hE], henv', hnnr⟩
        · obtain ⟨o', ho', hnnr'⟩ := evalPrefix_some_ok op obj
          exact ⟨o', env', by simp [goEval, heval, hE, ho'], henv', hnnr'⟩
      | infixExpression left op right =>
        simp only [wfB, Bool.and_eq_true, bne_iff_ne, ne_eq, Bool.not_eq_eq_eq_not,
          Bool.not_true, beq_eq_false_iff_ne] at hwf
        obtain ⟨⟨hop, hwl⟩, hwr⟩ := hwf
        have hltl : sizeOf left < sizeOf (Node.infixExpression left op right) := by simp <;> omega
        have hltr : sizeOf right < sizeOf (Node.infixExpression left op right) := by simp <;> omega
        obtain ⟨lo, env1, hevl, henv1, hnnl⟩ := (ih _ hsz).1 left env hltl hwl henv
        by_cases hEl : isError (some lo) = true
        · exact ⟨lo, env1, by simp [goEval, hevl, hEl], henv1, hnnl⟩
        · obtain ⟨ro, env2, hevr, henv2, hnnr⟩ := (ih _ hsz).1 right env1 hltr hwr henv1
          by_cases hEr : isError (some ro) = true
          · exact ⟨ro, env2, by simp [goEval, hevl, hEl, hevr, hEr], henv2, hnnr⟩
          · obtain ⟨o, ho, hnno⟩ := evalInfix_some_ok op lo ro hop
            exact ⟨o, env2, by simp [goEval, hevl, hEl, hevr, hEr, ho], henv2, hnno⟩
      | ifExpression cond cons alt =>
        cases alt with
        | none =>
          simp only [wfB, wfOptB, Bool.and_eq_true, Bool.and_true] at hwf
          obtain ⟨hwc, hwcons⟩ := hwf
          have hltc : sizeOf cond < sizeOf (Node.ifExpression cond cons none) := by simp <;> omega
          have hltcons : sizeOf cons < sizeOf (Node.ifExpression cond cons none) := by simp <;> omega
          obtain ⟨c, env1, hevc, henv1, hnnc⟩ := (ih _ hsz).1 cond env hltc hwc henv
          by_cases hE : isError (some c) = true
          · exact ⟨c, env1, by simp [goEval, hevc, hE], henv1, hnnc⟩
          · by_cases hT : isTruthy (some c) = true
            · obtain ⟨o, env2, hev2, henv2, hnn2⟩ := (ih _ hsz).1 cons env1 hltcons hwcons henv1
              exact ⟨o, env2, by simp [goEval, hevc, hE, hT, hev2], henv2, hnn2⟩
            · exact ⟨NULL, env1, by simp [goEval, hevc, hE, hT], henv1, rfl⟩
        | some a =>
          simp only [wfB, wfOptB, Bool.and_eq_true] at hwf
          obtain ⟨⟨hwc, hwcons⟩, hwalt⟩ := hwf
          have hltc : sizeOf cond < sizeOf (Node.ifExpression cond cons (some a)) := by simp <;> omega
          have hltcons : sizeOf cons < sizeOf (Node.ifExpression cond cons (some a)) := by simp <;> omega
          have hlta : sizeOf a < sizeOf (Node.ifExpression cond cons (some a)) := by simp <;> omega
          obtain ⟨c, env1, hevc, henv1, hnnc⟩ := (ih _ hsz).1 cond env hltc hwc henv
          by_cases hE : isError (some c) = true
          · exact ⟨c, env1, by simp [goEval, hevc, hE], henv1, hnnc⟩
          · by_cases hT : isTruthy (some c) = true
            · obtain ⟨o, env2, hev2, henv2, hnn2⟩ := (ih _ hsz).1 cons env1 hltcons hwcons henv1
              exact ⟨o, env2, by simp [goEval, hevc, hE, hT, hev2], henv2, hnn2⟩
            · obtain ⟨o, env2, hev2, henv2, hnn2⟩ := (ih _ hsz).1 a env1 hlta hwalt henv1
              exact ⟨o, env2, by simp [goEval, hevc, hE, hT, hev2], henv2, hnn2⟩
      | identifier name =>
        cases hg : env.get name with
        | some val =>
          have hok := envOk_get henv hg
          cases val with
          | none => simp [okVal] at hok
          | some o => exact ⟨o, env, by simp [goEval, hg], henv, by simpa [okVal] using hok⟩
        | none => exact ⟨newError ("unknown identifier: " ++ name), env, by simp [goEval, hg], henv, rfl⟩
      | stringLiteral s => simp [wfB] at hwf
      | arrayLiteral es => simp [wfB] at hwf
      | hashLiteral ps => simp [wfB] at hwf
      | functionLiteral ps b => simp [wfB] at hwf
      | callExpression f args => simp [wfB] at hwf
      | indexExpression l i => simp [wfB] at hwf
    · intro l acc env hsz hne hwfl henv
      cases l with
      | nil => exact absurd rfl hne
      | cons s rest =>
        simp only [wfListB, Bool.and_eq_true] at hwfl
        obtain ⟨hws, hwrest⟩ := hwfl
        have hlts : sizeOf s < sizeOf (s :: rest) := by simp <;> omega
        have hltrest : sizeOf rest < sizeOf (s :: rest) := by simp <;> omega
        obtain ⟨obj, env1, heval, henv1, hnnr⟩ := (ih _ hsz).1 s env hlts hws henv
        have hcontP : ∀ (ob : Object), envOk env1 = true → noNilReturn ob = true →
            ∃ obj2 env2, evalProgramLoop rest (some ob) env1 = .ok (some obj2) env2 ∧
              envOk env2 = true ∧ noNilReturn obj2 = true := by
          intro ob h1 h2
          cases rest with
          | nil => exact ⟨ob, env1, by simp [evalProgramLoop], h1, h2⟩
          | cons r rs =>
            exact ((ih _ hsz).2 (r :: rs) (some ob) env1 hltrest (by simp) hwrest h1).1
        have hcontB : ∀ (ob : Object), envOk env1 = true → noNilReturn ob = true →
            ∃ obj2 env2, evalBlockLoop rest (some ob) env1 = .ok (some obj2) env2 ∧
              envOk env2 = true ∧ noNilReturn obj2 = true := by
          intro ob h1 h2
          cases rest with
          | nil => exact ⟨ob, env1, by simp [evalBlockLoop], h1, h2⟩
          | cons r rs =>
            exact ((ih _ hsz).2 (r :: rs) (some ob) env1 hltrest (by simp) hwrest h1).2
        constructor
        · cases obj with
          | returnO v =>
            cases v with
            | none => simp [noNilReturn] at hnnr
            | some x =>
              exact ⟨x, env1, by simp [evalProgramLoop, heval], henv1, by simpa [noNilReturn] using hnnr⟩
          | errorO m => exact ⟨.errorO m, env1, by simp [evalProgramLoop, heval], henv1, rfl⟩
          | integerO v =>
            obtain ⟨o2, e2, h2, h3, h4⟩ := hcontP (.integerO v) henv1 hnnr
            exact ⟨o2, e2, by simp [evalProgramLoop, heval, h2], h3, h4⟩
          | booleanO v c =>
            obtain ⟨o2, e2, h2, h3, h4⟩ := hcontP (.booleanO v c) henv1 hnnr
            exact ⟨o2, e2, by simp [evalProgramLoop, heval, h2], h3, h4⟩
          | nullO c =>
            obtain ⟨o2, e2, h2, h3, h4⟩ := hcontP (.nullO c) henv1 hnnr
            exact ⟨o2, e2, by simp [evalProgramLoop, heval, h2], h3, h4⟩
        · cases obj with
          | returnO v =>
            exact ⟨.returnO v, env1, by simp [evalBlockLoop, heval, objectType], henv1, hnnr⟩
          | errorO m => exact ⟨.errorO m, env1, by simp [evalBlockLoop, heval, objectType], henv1, rfl⟩
          | integerO v =>
            obtain ⟨o2, e2, h2, h3, h4⟩ := hcontB (.integerO v) henv1 hnnr
            exact ⟨o2, e2, by simp [evalBlockLoop, heval, objectType, h2], h3, h4⟩
          | booleanO v c =>
            obtain ⟨o2, e2, h2, h3, h4⟩ := hcontB (.booleanO v c) henv1 hnnr
            exact ⟨o2, e2, by simp [evalBlockLoop, heval, objectType, h2], h3, h4⟩
          | nullO c =>
            obtain ⟨o2, e2, h2, h3, h4⟩ := hcontB (.nullO c) henv1 hnnr
            exact ⟨o2, e2, by simp [evalBlockLoop, heval, objectType, h2], h3, h4⟩

theorem evalCanonAux : ∀ N : Nat,
    (∀ (n : Node) (env : Env) (r : Option Object) (env' : Env), sizeOf n < N →
       envCanon env = true → goEval n env = .ok r env' → canonOpt r = true ∧ envCanon env' = true) ∧
    (∀ (l : List Node) (acc : Option Object) (env : Env) (r : Option Object) (env' : Env),
       sizeOf l < N → canonOpt acc = true → envCanon env = true →
       (evalProgramLoop l acc env = .ok r env' → canonOpt r = true ∧ envCanon env' = true) ∧
       (evalBlockLoop l acc env = .ok r env' → canonOpt r = true ∧ envCanon env' = true)) := by
  intro N
  induction N using Nat.strong_induction_on with
  | _ N ih =>
    constructor
    · intro n env r env' hsz henv heval
      cases n with
      | program stmts =>
        simp only [goEval] at heval
        exact (((ih _ hsz).2 stmts none env r env' (by simp <;> omega) rfl henv).1) heval
      | expressionStatement e =>
        simp only [goEval] at heval
        exact (ih _ hsz).1 e env r env' (by simp) henv heval
      | blockStatement stmts =>
        simp only [goEval] at heval
        exact (((ih _ hsz).2 stmts none env r env' (by simp <;> omega) rfl henv).2) heval
      | returnStatement rv =>
        cases rv with
        | none =>
          simp only [goEval, Outcome.ok.injEq] at heval
          obtain ⟨h1, h2⟩ := heval
          subst h1; subst h2
          exact ⟨rfl, henv⟩
        | some e =>
          simp only [goEval] at heval
          cases hsub : goEval e env with
          | panic m => simp [hsub, handleReturnValue] at heval
          | ok val env1 =>
            simp only [hsub] at heval
            obtain ⟨hc, he1⟩ := (ih _ hsz).1 e env val env1 (by simp <;> omega) henv hsub
            simp only [handleReturnValue] at heval
            split_ifs at heval
            · obtain ⟨h1, h2⟩ := Outcome.ok.inj heval
              subst h1; subst h2; exact ⟨hc, he1⟩
            · obtain ⟨h1, h2⟩ := Outcome.ok.inj heval
              subst h1; subst h2
              exact ⟨by simpa [canonOpt, canonO_returnO] using hc, he1⟩
      | varStatement name value =>
        simp only [goEval] at heval
        cases hsub : goEval value env with
        | panic m => simp [hsub] at heval
        | ok val env1 =>
          simp only [hsub] at heval
          obtain ⟨hc, he1⟩ := (ih _ hsz).1 value env val env1 (by simp <;> omega) henv hsub
          split_ifs at heval
          · obtain ⟨h1, h2⟩ := Outcome.ok.inj heval
            subst h1; subst h2; exact ⟨hc, he1⟩
          · obtain ⟨h1, h2⟩ := Outcome.ok.inj heval
            subst h1; subst h2
            exact ⟨hc, envCanon_set he1 hc name⟩
      | integerLiteral v =>
        simp only [goEval, Outcome.ok.injEq] at heval
        obtain ⟨h1, h2⟩ := heval
        subst h1; subst h2
        exact ⟨rfl, henv⟩
      | booleanLiteral b =>
        simp only [goEval, Outcome.ok.injEq] at heval
        obtain ⟨h1, h2⟩ := heval
        subst h1; subst h2
        exact ⟨by simpa [canonOpt] using canonO_boolRef b, henv⟩
      | prefixExpression op right =>
        simp only [goEval] at heval
        cases hsub : goEval right env with
        | panic m => simp [hsub] at heval
        | ok r0 env1 =>
          simp only [hsub] at heval
          obtain ⟨hc, he1⟩ := (ih _ hsz).1 right env r0 env1 (by simp <;> omega) henv hsub
          split_ifs at heval
          · obtain ⟨h1, h2⟩ := Outcome.ok.inj heval
            subst h1; subst h2; exact ⟨hc, he1⟩
          · cases hpre : evalPrefixExpression op r0 with
            | error m => simp [hpre] at heval
            | ok o =>
              simp only [hpre] at heval
              obtain ⟨h1, h2⟩ := Outcome.ok.inj heval
              subst h1; subst h2
              exact ⟨by simpa [canonOpt] using canonO_prefix hpre, he1⟩
      | infixExpression left op right =>
        simp only [goEval] at heval
        cases hsubl : goEval left env with
        | panic m => simp [hsubl] at heval
        | ok lo env1 =>
          simp only [hsubl] at heval
          obtain ⟨hcl, he1⟩ := (ih _ hsz).1 left env lo env1 (by simp <;> omega) henv hsubl
          split_ifs at heval
          · obtain ⟨h1, h2⟩ := Outcome.ok.inj heval
            subst h1; subst h2; exact ⟨hcl, he1⟩
          · cases hsubr : goEval right env1 with
            | panic m => simp [hsubr] at heval
            | ok ro env2 =>
              simp only [hsubr] at heval
              obtain ⟨hcr, he2⟩ := (ih _ hsz).1 right env1 ro env2 (by simp <;> omega) he1 hsubr
              split_ifs at heval
              · obtain ⟨h1, h2⟩ := Outcome.ok.inj heval
                subst h1; subst h2; exact ⟨hcr, he2⟩
              · cases hinf : evalInfixExpression op lo ro with
                | error m => simp [hinf] at heval
                | ok o =>
                  simp only [hinf] at heval
                  obtain ⟨h1, h2⟩ := Outcome.ok.inj heval
                  subst h1; subst h2
                  exact ⟨by simpa [canonOpt] using canonO_infix hinf, he2⟩
      | ifExpression cond cons alt =>
        cases alt with
        | none =>
          simp only [goEval] at heval
          cases hsub : goEval cond env with
          | panic m => simp [hsub] at heval
          | ok c env1 =>
            simp only [hsub] at heval
            obtain ⟨hcc, he1⟩ := (ih _ hsz).1 cond env c env1 (by simp <;> omega) henv hsub
            split_ifs at heval
            · obtain ⟨h1, h2⟩ := Outcome.ok.inj heval
              subst h1; subst h2; exact ⟨hcc, he1⟩
            · exact (ih _ hsz).1 cons env1 r env' (by simp <;> omega) he1 heval
            · obtain ⟨h1, h2⟩ := Outcome.ok.inj heval
              subst h1; subst h2; exact ⟨rfl, he1⟩
        | some a =>
          simp only [goEval] at heval
          cases hsub : goEval cond env with
          | panic m => simp [hsub] at heval
          | ok c env1 =>
            simp only [hsub] at heval
            obtain ⟨hcc, he1⟩ := (ih _ hsz).1 cond env c env1 (by simp <;> omega) henv hsub
            split_ifs at heval
            · obtain ⟨h1, h2⟩ := Outcome.ok.inj heval
              subst h1; subst h2; exact ⟨hcc, he1⟩
            · exact (ih _ hsz).1 cons env1 r env' (by simp <;> omega) he1 heval
            · exact (ih _ hsz).1 a env1 r env' (by simp <;> omega) he1 heval
      | identifier name =>
        simp only [goEval] at heval
        cases hg : env.get name with
        | some val =>
          simp only [hg] at heval
          obtain ⟨h1, h2⟩ := Outcome.ok.inj heval
          subst h1; subst h2
          exact ⟨envCanon_get henv hg, henv⟩
        | none =>
          simp only [hg] at heval
          obtain ⟨h1, h2⟩ := Outcome.ok.inj heval
          subst h1; subst h2
          exact ⟨rfl, henv⟩
      | stringLiteral s =>
        simp only [goEval, Outcome.ok.injEq] at heval
        obtain ⟨h1, h2⟩ := heval
        subst h1; subst h2; exact ⟨rfl, henv⟩
      | arrayLiteral es =>
        simp only [goEval, Outcome.ok.injEq] at heval
        obtain ⟨h1, h2⟩ := heval
        subst h1; subst h2; exact ⟨rfl, henv⟩
      | hashLiteral ps =>
        simp only [goEval, Outcome.ok.injEq] at heval
        obtain ⟨h1, h2⟩ := heval
        subst h1; subst h2; exact ⟨rfl, henv⟩
      | functionLiteral ps b =>
        simp only [goEval, Outcome.ok.injEq] at heval
        obtain ⟨h1, h2⟩ := heval
        subst h1; subst h2; exact ⟨rfl, henv⟩
      | callExpression f args =>
        simp only [goEval, Outcome.ok.injEq] at heval
        obtain ⟨h1, h2⟩ := heval
        subst h1; subst h2; exact ⟨rfl, henv⟩
      | indexExpression li i =>
        simp only [goEval, Outcome.ok.injEq] at heval
        obtain ⟨h1, h2⟩ := heval
        subst h1; subst h2; exact ⟨rfl, henv⟩
    · intro l acc env r env' hsz hacc henv
      cases l with
      | nil =>
        constructor <;> intro heval <;>
          · simp only [evalProgramLoop, evalBlockLoop, Outcome.ok.injEq] at heval
            obtain ⟨h1, h2⟩ := heval
            subst h1; subst h2; exact ⟨hacc, henv⟩
      | cons s rest =>
        constructor <;> intro heval
        · simp only [evalProgramLoop] at heval
          cases hsub : goEval s env with
          | panic m => simp [hsub] at heval
          | ok result env1 =>
            simp only [hsub] at heval
            obtain ⟨hcr, he1⟩ := (ih _ hsz).1 s env result env1 (by simp <;> omega) henv hsub
            cases result with
            | none =>
              dsimp only at heval
              exact ((ih _ hsz).2 rest none env1 r env' (by simp <;> omega) rfl he1).1 heval
            | some ob =>
              cases ob with
              | returnO v =>
                dsimp only at heval
                obtain ⟨h1, h2⟩ := Outcome.ok.inj heval
                subst h1; subst h2
                exact ⟨by simpa [canonOpt, canonO_returnO] using hcr, he1⟩
              | errorO m =>
                dsimp only at heval
                obtain ⟨h1, h2⟩ := Outcome.ok.inj heval
                subst h1; subst h2
                exact ⟨rfl, he1⟩
              | integerO v =>
                dsimp only at heval
                exact ((ih _ hsz).2 rest (some (.integerO v)) env1 r env' (by simp <;> omega) hcr he1).1 heval
              | booleanO v c =>
                dsimp only at heval
                exact ((ih _ hsz).2 rest (some (.booleanO v c)) env1 r env' (by simp <;> omega) hcr he1).1 heval
              | nullO c =>
                dsimp only at heval
                exact ((ih _ hsz).2 rest (some (.nullO c)) env1 r env' (by simp <;> omega) hcr he1).1 heval
        · simp only [evalBlockLoop] at heval
          cases hsub : goEval s env with
          | panic m => simp [hsub] at heval
          | ok result env1 =>
            simp only [hsub] at heval
            obtain ⟨hcr, he1⟩ := (ih _ hsz).1 s env result env1 (by simp <;> omega) henv hsub
            cases result with
            | none =>
              dsimp only at heval
              exact ((ih _ hsz).2 rest none env1 r env' (by simp <;> omega) rfl he1).2 heval
            | some ob =>
              dsimp only at heval
              by_cases hsig : objectType ob = "RETURN" ∨ objectType ob = "ERROR"
              · rw [if_pos hsig] at heval
                obtain ⟨h1, h2⟩ := Outcome.ok.inj heval
                subst h1; subst h2
                exact ⟨hcr, he1⟩
              · rw [if_neg hsig] at heval
                exact ((ih _ hsz).2 rest (some ob) env1 r env' (by simp <;> omega) hcr he1).2 heval

theorem programLoop_return (s : Node) (rest : List Node) (acc : Option Object) (env : Env)
    (v : Option Object) (env1 : Env) (h : goEval s env = .ok (some (.returnO v)) env1) :
    evalProgramLoop (s :: rest) acc env = .ok v env1 := by
  simp [evalProgramLoop, h]

theorem programLoop_error (s : Node) (rest : List Node) (acc : Option Object) (env : Env)
    (m : String) (env1 : Env) (h : goEval s env = .ok (some (.errorO m)) env1) :
    evalProgramLoop (s :: rest) acc env = .ok (some (.errorO m)) env1 := by
  simp [evalProgramLoop, h]

theorem blockLoop_signal (s : Node) (rest : List Node) (acc : Option Object) (env : Env)
    (r : Object) (env1 : Env) (h : goEval s env = .ok (some r) env1)
    (hsig : objectType r = "RETURN" ∨ objectType r = "ERROR") :
    evalBlockLoop (s :: rest) acc env = .ok (some r) env1 := by
  simp [evalBlockLoop, h, hsig]

theorem loops_continue (s : Node) (rest : List Node) (acc : Option Object) (env : Env)
    (r : Option Object) (env1 : Env) (h : goEval s env = .ok r env1)
    (hret : ∀ v, r ≠ some (.returnO v)) (herr : ∀ m, r ≠ some (.errorO m)) :
    evalProgramLoop (s :: rest) acc env = evalProgramLoop rest r env1 ∧
    evalBlockLoop (s :: rest) acc env = evalBlockLoop rest r env1 := by
  constructor
  · simp only [evalProgramLoop, h]
  · simp only [evalBlockLoop, h]
    cases r with
    | none => rfl
    | some ob =>
      have hsig : ¬(objectType ob = "RETURN" ∨ objectType ob = "ERROR") := by
        cases ob with
        | returnO v => exact absurd rfl (hret v)
        | errorO m => exact absurd rfl (herr m)
        | integerO n => simp [objectType]
        | booleanO b c => simp [objectType]
        | nullO c => simp [objectType]
      dsimp only
      rw [if_neg hsig]

theorem threads_prepend {stmts : List Node} {env env2 : Env} (ht : Threads stmts env env2) :
    ∀ (s : Node) (rest : List Node) (acc acc2 : Option Object),
      evalProgramLoop (stmts ++ s :: rest) acc env = evalProgramLoop (s :: rest) acc2 env2 ∧
      evalBlockLoop (stmts ++ s :: rest) acc env = evalBlockLoop (s :: rest) acc2 env2 := by
  induction ht with
  | nil env =>
    intro s rest acc acc2
    constructor
    · simp only [List.nil_append, evalProgramLoop]
    · simp only [List.nil_append, evalBlockLoop]
  | cons heval hret herr hrest ih =>
    intro s rest acc acc2
    constructor
    · rw [List.cons_append]
      rw [(loops_continue _ _ acc _ _ _ heval hret herr).1]
      exact (ih s rest _ acc2).1
    · rw [List.cons_append]
      rw [(loops_continue _ _ acc _ _ _ heval hret herr).2]
      exact (ih s rest _ acc2).2


/-! Claim theorems. -/

/-- C2: the evaluator is not panic-free: evaluating the program `1 / 0;`
reaches Go's `leftVal / rightVal` in `evalIntegerInfixExpression` with a
zero divisor and raises the host-level division-by-zero runtime panic
instead of producing an `Error` object. -/
theorem c2_division_by_zero_panics :
    goEval (.program [.expressionStatement
      (.infixExpression (.integerLiteral 1) "/" (.integerLiteral 0))]) emptyEnv =
      .panic divZeroMsg := by
  simp [goEval, evalProgramLoop, evalInfixExpression, evalIntegerInfixExpression,
    isError, objectType]

/-- C8: evaluating a `Program` or a `BlockStatement` with zero statements
returns the host's nil (no `Object` at all), not the canonical `Null`
object. -/
theorem c8_empty_program_and_block_yield_nil (env : Env) :
    goEval (.program []) env = .ok none env ∧
    goEval (.blockStatement []) env = .ok none env ∧
    (none : Option Object) ≠ some NULL := by
  refine ⟨?_, ?_, by simp⟩ <;> simp [goEval, evalProgramLoop, evalBlockLoop]

/-- C10: `+`, `-`, `*` on two `Integer` operands and prefix `-` compute
their result modulo `2 ^ 64`: the produced value is congruent to the exact
result modulo `2 ^ 64` and lies in the `int64` range, no overflow is ever
reported as an `Error`, and negating the minimum `int64` yields itself. -/
theorem c10_int64_wraparound (a b : Int) :
    (evalIntegerInfixExpression "+" (.integerO a) (.integerO b) = .ok (.integerO (add64 a b)) ∧
      add64 a b % two64 = (a + b) % two64 ∧ int64Range (add64 a b)) ∧
    (evalIntegerInfixExpression "-" (.integerO a) (.integerO b) = .ok (.integerO (sub64 a b)) ∧
      sub64 a b % two64 = (a - b) % two64 ∧ int64Range (sub64 a b)) ∧
    (evalIntegerInfixExpression "*" (.integerO a) (.integerO b) = .ok (.integerO (mul64 a b)) ∧
      mul64 a b % two64 = (a * b) % two64 ∧ int64Range (mul64 a b)) ∧
    (evalMinusPrefixOperatorExpression (some (.integerO a)) = .ok (.integerO (neg64 a)) ∧
      neg64 a % two64 = (-a) % two64 ∧ int64Range (neg64 a)) ∧
    neg64 (-two63) = -two63 := by
  refine ⟨⟨rfl, ?_, ?_⟩, ⟨rfl, ?_, ?_⟩, ⟨rfl, ?_, ?_⟩, ⟨rfl, ?_, ?_⟩, ?_⟩ <;>
    simp [add64, sub64, mul64, neg64, wrap64, int64Range, two63, two64] <;> omega

/-- C7: the prefix `!` maps the canonical `TRUE` to `FALSE`, `FALSE` to
`TRUE`, `NULL` to `TRUE`, and every other operand value to `FALSE`; its
result is always one of the two canonical booleans (never an error), and
inside `Eval` a `!`-prefix node whose operand evaluated without error
yields exactly that boolean. -/
theorem c7_bang_operator :
    evalBangOperatorExpression (some TRUE) = FALSE ∧
    evalBangOperatorExpression (some FALSE) = TRUE ∧
    evalBangOperatorExpression (some NULL) = TRUE ∧
    (∀ v : Object, v ≠ TRUE → v ≠ FALSE → v ≠ NULL →
      evalBangOperatorExpression (some v) = FALSE) ∧
    (∀ x : Option Object,
      evalBangOperatorExpression x = TRUE ∨ evalBangOperatorExpression x = FALSE) ∧
    (∀ (right : Node) (env : Env) (r : Option Object) (env1 : Env),
      goEval right env = .ok r env1 → isError r = false →
      goEval (.prefixExpression "!" right) env =
        .ok (some (evalBangOperatorExpression r)) env1) := by
  refine ⟨rfl, rfl, rfl, ?_, evalBang_canonical, ?_⟩
  · intro v h1 h2 h3
    cases v with
    | integerO n => rfl
    | booleanO b c => cases b <;> cases c <;> simp_all [TRUE, FALSE, evalBangOperatorExpression]
    | nullO c => cases c <;> simp_all [NULL, evalBangOperatorExpression]
    | returnO rv => rfl
    | errorO m => rfl
  · intro right env r env1 heval herr
    simp [goEval, heval, herr, evalPrefixExpression]

/-- C7 witness: concrete instances discharging the hypotheses of
`c7_bang_operator`: `!3` is `FALSE` (a non-boolean operand is truthy and
negating it is not an error), and inside `Eval` the node `!3` evaluates to
`FALSE`. -/
theorem c7_bang_operator_witness :
    evalBangOperatorExpression (some (.integerO 3)) = FALSE ∧
    goEval (.prefixExpression "!" (.integerLiteral 3)) emptyEnv =
      .ok (some FALSE) emptyEnv := by
  constructor
  · exact c7_bang_operator.2.2.2.1 (.integerO 3) (by simp [TRUE]) (by simp [FALSE]) (by simp [NULL])
  · exact c7_bang_operator.2.2.2.2.2 (.integerLiteral 3) emptyEnv (some (.integerO 3)) emptyEnv
      (by simp [goEval]) rfl

/-- C1 counterexample: `Eval` is not total over the spec's closed AST node
set: on a `StringLiteral`, `ArrayLiteral`, `HashLiteral`, `FunctionLiteral`,
`CallExpression` or `IndexExpression` node the type switch falls into its
`default:` branch and returns the nil interface value, not an `Object`. -/
theorem c1_counterexample :
    goEval (.stringLiteral "s") emptyEnv = .ok none emptyEnv ∧
    goEval (.arrayLiteral []) emptyEnv = .ok none emptyEnv ∧
    goEval (.hashLiteral []) emptyEnv = .ok none emptyEnv ∧
    goEval (.functionLiteral [] []) emptyEnv = .ok none emptyEnv ∧
    goEval (.callExpression (.identifier "f") []) emptyEnv = .ok none emptyEnv ∧
    goEval (.indexExpression (.integerLiteral 1) (.integerLiteral 0)) emptyEnv =
      .ok none emptyEnv := by
  refine ⟨?_, ?_, ?_, ?_, ?_, ?_⟩ <;> simp [goEval]

/-- C1 (amended): `evaluate(node, environment)` does return an `Object` for
every node built from the handled variants (`Program`, `ExpressionStatement`,
`BlockStatement`, `ReturnStatement` with a value, `VarStatement`,
`IntegerLiteral`, `BooleanLiteral`, `PrefixExpression`, `InfixExpression`
with an operator other than `/`, `IfExpression`, `Identifier`) in which
every `Program`/`BlockStatement` statement list is non-empty, given an
environment all of whose bindings are non-nil objects free of nil-payload
`Return` wrappers. -/
theorem c1_eval_totality (node : Node) (env : Env)
    (hwf : wfB node = true) (henv : envOk env = true) :
    ∃ obj env', goEval node env = .ok (some obj) env' := by
  obtain ⟨obj, env', h, -, -⟩ :=
    (evalWfAux (sizeOf node + 1)).1 node env (by omega) hwf henv
  exact ⟨obj, env', h⟩

/-- C1 witness: `c1_eval_totality` applied to the concrete program
`var x = 1; if (x < 2) { x } else { 0 };` in the empty environment. -/
theorem c1_eval_totality_witness :
    ∃ obj env', goEval (.program
      [.varStatement "x" (.integerLiteral 1),
       .expressionStatement (.ifExpression
         (.infixExpression (.identifier "x") "<" (.integerLiteral 2))
         (.blockStatement [.expressionStatement (.identifier "x")])
         (some (.blockStatement [.expressionStatement (.integerLiteral 0)])))])
      emptyEnv = .ok (some obj) env' :=
  c1_eval_totality _ emptyEnv (by simp [wfB, wfListB, wfOptB]) rfl

/-- C6: every `Boolean`/`Null` object produced by any successful evaluation
step (also inside `Return` wrappers, results and environment bindings) is
one of the three canonical singletons `TRUE`/`FALSE`/`NULL`, provided the
starting environment only holds canonical objects; and on these singletons
the evaluator's identity comparison coincides with value comparison. -/
theorem c6_singleton_booleans :
    (∀ (node : Node) (env : Env) (r : Option Object) (env' : Env),
      envCanon env = true → goEval node env = .ok r env' →
      canonOpt r = true ∧ envCanon env' = true) ∧
    (∀ b1 b2 : Bool, goIdEq (.booleanO b1 true) (.booleanO b2 true) = (b1 == b2)) ∧
    goIdEq NULL NULL = true ∧
    (∀ b : Bool, goIdEq (.booleanO b true) NULL = false) ∧
    (∀ b : Bool, evalBoolToBooleanObjectReference b = TRUE ∨
      evalBoolToBooleanObjectReference b = FALSE) ∧
    (∀ x : Option Object,
      evalBangOperatorExpression x = TRUE ∨ evalBangOperatorExpression x = FALSE) := by
  refine ⟨?_, ?_, rfl, ?_, ?_, evalBang_canonical⟩
  · intro node env r env' henv heval
    exact (evalCanonAux (sizeOf node + 1)).1 node env r env' (by omega) henv heval
  · intro b1 b2; cases b1 <;> cases b2 <;> rfl
  · intro b; cases b <;> rfl
  · intro b; cases b
    · right; rfl
    · left; rfl

/-- C6 witness: `c6_singleton_booleans` applied to the concrete node
`true == false` in the empty environment: the result only contains
canonical singletons. -/
theorem c6_singleton_booleans_witness :
    canonOpt (some FALSE) = true ∧ envCanon emptyEnv = true :=
  c6_singleton_booleans.1
    (.expressionStatement (.infixExpression (.booleanLiteral true) "==" (.booleanLiteral false)))
    emptyEnv (some FALSE) emptyEnv rfl
    (by simp [goEval, evalInfixExpression, isError, objectType, goIdEq,
      evalBoolToBooleanObjectReference, TRUE, FALSE])

/-- C3 counterexample: the claim "if both operands are Integer, `+ - * /`
produce an Integer" fails for `/` at divisor `0`: `evalIntegerInfixExpression`
on `Integer(1) / Integer(0)` raises the host division-by-zero panic instead
of producing any object; the same panic surfaces when evaluating the whole
program `5 / 0;`. -/
theorem c3_counterexample :
    evalIntegerInfixExpression "/" (.integerO 1) (.integerO 0) = .error divZeroMsg ∧
    goEval (.program [.expressionStatement
      (.infixExpression (.integerLiteral 5) "/" (.integerLiteral 0))]) emptyEnv =
      .panic divZeroMsg := by
  constructor
  · simp [evalIntegerInfixExpression]
  · simp [goEval, evalProgramLoop, evalInfixExpression, evalIntegerInfixExpression,
      isError, objectType]

/-- C3 (amended): `evalInfixExpression` dispatches exactly as claimed —
operands of different types give the `type mismatch` error with the exact
message; two Integers dispatch to `evalIntegerInfixExpression`, where
`+ - *` produce an Integer, `/` produces an Integer when the divisor is
nonzero (a zero divisor raises a host panic), and the six comparisons
produce a Boolean by direct numeric comparison; same-typed non-integer
operands under `==`/`!=` compare operand identity; every other combination
gives the `unknown operator` error with the exact message. -/
theorem c3_infix_dispatch :
    (∀ (op : String) (l r : Object), objectType l ≠ objectType r →
      evalInfixExpression op (some l) (some r) =
        .ok (newError ("type mismatch: " ++ objectType l ++ " " ++ op ++ " " ++ objectType r))) ∧
    (∀ a b : Int,
      evalIntegerInfixExpression "+" (.integerO a) (.integerO b) = .ok (.integerO (add64 a b)) ∧
      evalIntegerInfixExpression "-" (.integerO a) (.integerO b) = .ok (.integerO (sub64 a b)) ∧
      evalIntegerInfixExpression "*" (.integerO a) (.integerO b) = .ok (.integerO (mul64 a b)) ∧
      (b ≠ 0 → evalIntegerInfixExpression "/" (.integerO a) (.integerO b) =
        .ok (.integerO (div64 a b))) ∧
      evalIntegerInfixExpression "<" (.integerO a) (.integerO b) =
        .ok (evalBoolToBooleanObjectReference (decide (a < b))) ∧
      evalIntegerInfixExpression ">" (.integerO a) (.integerO b) =
        .ok (evalBoolToBooleanObjectReference (decide (b < a))) ∧
      evalIntegerInfixExpression "==" (.integerO a) (.integerO b) =
        .ok (evalBoolToBooleanObjectReference (decide (a = b))) ∧
      evalIntegerInfixExpression "!=" (.integerO a) (.integerO b) =
        .ok (evalBoolToBooleanObjectReference (decide (a ≠ b))) ∧
      evalIntegerInfixExpression "<=" (.integerO a) (.integerO b) =
        .ok (evalBoolToBooleanObjectReference (decide (a ≤ b))) ∧
      evalIntegerInfixExpression ">=" (.integerO a) (.integerO b) =
        .ok (evalBoolToBooleanObjectReference (decide (b ≤ a)))) ∧
    (∀ (op : String) (a b : Int),
      evalInfixExpression op (some (.integerO a)) (some (.integerO b)) =
        evalIntegerInfixExpression op (.integerO a) (.integerO b)) ∧
    (∀ (l r : Object), objectType l = objectType r → objectType l ≠ "INTEGER" →
      evalInfixExpression "==" (some l) (some r) =
        .ok (evalBoolToBooleanObjectReference (goIdEq l r)) ∧
      evalInfixExpression "!=" (some l) (some r) =
        .ok (evalBoolToBooleanObjectReference (!goIdEq l r))) ∧
    (∀ (op : String) (l r : Object), objectType l = objectType r →
      objectType l ≠ "INTEGER" → op ≠ "==" → op ≠ "!=" →
      evalInfixExpression op (some l) (some r) =
        .ok (newError ("unknown operator: " ++ objectType l ++ " " ++ op ++ " " ++ objectType r))) ∧
    (∀ (op : String) (a b : Int),
      op ≠ "+" → op ≠ "-" → op ≠ "*" → op ≠ "/" → op ≠ "<" → op ≠ ">" →
      op ≠ "==" → op ≠ "!=" → op ≠ "<=" → op ≠ ">=" →
      evalIntegerInfixExpression op (.integerO a) (.integerO b) =
        .ok (newError ("unknown operator: " ++ "INTEGER" ++ " " ++ op ++ " " ++ "INTEGER"))) := by
  refine ⟨?_, ?_, ?_, ?_, ?_, ?_⟩
  · intro op l r hne
    simp only [evalInfixExpression]
    rw [if_pos hne]
  · intro a b
    refine ⟨rfl, rfl, rfl, fun hb => ?_, rfl, rfl, rfl, rfl, rfl, rfl⟩
    simp [evalIntegerInfixExpression, hb]
  · intro op a b
    simp [evalInfixExpression, objectType]
  · intro l r heq hni
    constructor
    · simp only [evalInfixExpression]
      rw [if_neg (by simpa using heq), if_neg (fun hc => hni hc.1)]
      simp
    · simp only [evalInfixExpression]
      rw [if_neg (by simpa using heq), if_neg (fun hc => hni hc.1)]
      simp
  · intro op l r heq hni hne1 hne2
    simp only [evalInfixExpression]
    rw [if_neg (by simpa using heq), if_neg (fun hc => hni hc.1), if_neg hne1, if_neg hne2]
  · intro op a b h1 h2 h3 h4 h5 h6 h7 h8 h9 h10
    unfold evalIntegerInfixExpression
    dsimp only
    rw [if_neg h1, if_neg h2, if_neg h3, if_neg h4, if_neg h5, if_neg h6, if_neg h7,
      if_neg h8, if_neg h9, if_neg h10]
    rfl

/-- C3 witness: the spec's own example, obtained from `c3_infix_dispatch`:
`5 + true` gives `Error("type mismatch: INTEGER + BOOLEAN")`; also a
division instance with a nonzero divisor and an identity comparison. -/
theorem c3_infix_dispatch_witness :
    evalInfixExpression "+" (some (.integerO 5)) (some TRUE) =
      .ok (newError "type mismatch: INTEGER + BOOLEAN") ∧
    evalIntegerInfixExpression "/" (.integerO 7) (.integerO 2) = .ok (.integerO 3) ∧
    evalInfixExpression "==" (some TRUE) (some TRUE) = .ok TRUE := by
  refine ⟨?_, ?_, ?_⟩
  · exact c3_infix_dispatch.1 "+" (.integerO 5) TRUE (by simp [objectType, TRUE])
  · have h := (c3_infix_dispatch.2.1 7 2).2.2.2.1 (by norm_num)
    simpa [div64, wrap64, two63, two64] using h
  · have h := (c3_infix_dispatch.2.2.2.1 TRUE TRUE (by rfl) (by simp [objectType, TRUE])).1
    simpa [goIdEq, TRUE, evalBoolToBooleanObjectReference] using h

/-- C4: statements are evaluated in order; a statement whose result is a
`Return` or `Error` object makes the whole program/block yield that signal
at once (no later statement runs, independently of what follows), and a
statement with any other result hands its result and mutated environment to
the rest of the list, so the final result is the last statement's; a prefix
that runs through without signals only advances the environment. -/
theorem c4_statement_sequencing :
    (∀ (s : Node) (rest : List Node) (acc : Option Object) (env : Env)
      (v : Option Object) (env1 : Env), goEval s env = .ok (some (.returnO v)) env1 →
      evalProgramLoop (s :: rest) acc env = .ok v env1) ∧
    (∀ (s : Node) (rest : List Node) (acc : Option Object) (env : Env)
      (m : String) (env1 : Env), goEval s env = .ok (some (.errorO m)) env1 →
      evalProgramLoop (s :: rest) acc env = .ok (some (.errorO m)) env1) ∧
    (∀ (s : Node) (rest : List Node) (acc : Option Object) (env : Env)
      (r : Object) (env1 : Env), goEval s env = .ok (some r) env1 →
      (objectType r = "RETURN" ∨ objectType r = "ERROR") →
      evalBlockLoop (s :: rest) acc env = .ok (some r) env1) ∧
    (∀ (s : Node) (rest : List Node) (acc : Option Object) (env : Env)
      (r : Option Object) (env1 : Env), goEval s env = .ok r env1 →
      (∀ v, r ≠ some (.returnO v)) → (∀ m, r ≠ some (.errorO m)) →
      evalProgramLoop (s :: rest) acc env = evalProgramLoop rest r env1 ∧
      evalBlockLoop (s :: rest) acc env = evalBlockLoop rest r env1) ∧
    (∀ (stmts : List Node) (env env2 : Env), Threads stmts env env2 →
      ∀ (s : Node) (rest : List Node) (acc acc2 : Option Object),
        evalProgramLoop (stmts ++ s :: rest) acc env =
          evalProgramLoop (s :: rest) acc2 env2 ∧
        evalBlockLoop (stmts ++ s :: rest) acc env =
          evalBlockLoop (s :: rest) acc2 env2) :=
  ⟨programLoop_return, programLoop_error, blockLoop_signal,
    loops_continue, fun _ _ _ ht => threads_prepend ht⟩

/-- C4 witness: concrete instances discharging the hypotheses of
`c4_statement_sequencing`: `return 7;` short-circuits the program (the
trailing statement never runs), an error object short-circuits a block, and
a threaded prefix `var x = 1;` only advances the environment. -/
theorem c4_statement_sequencing_witness :
    evalProgramLoop [.returnStatement (some (.integerLiteral 7)),
      .expressionStatement (.integerLiteral 0)] none emptyEnv =
      .ok (some (.integerO 7)) emptyEnv ∧
    evalBlockLoop [.expressionStatement (.identifier "nope"),
      .expressionStatement (.integerLiteral 0)] none emptyEnv =
      .ok (some (newError "unknown identifier: nope")) emptyEnv ∧
    evalProgramLoop ([.varStatement "x" (.integerLiteral 1)] ++
        [.expressionStatement (.integerLiteral 2)]) none emptyEnv =
      evalProgramLoop [.expressionStatement (.integerLiteral 2)] none
        (emptyEnv.set "x" (some (.integerO 1))) := by
  refine ⟨?_, ?_, ?_⟩
  · exact c4_statement_sequencing.1 _ _ none emptyEnv (some (.integerO 7)) emptyEnv
      (by simp [goEval, handleReturnValue, isError, objectType])
  · exact c4_statement_sequencing.2.2.1 _ _ none emptyEnv
      (newError "unknown identifier: nope") emptyEnv
      (by simp [goEval, Env.get, lookupStore, emptyEnv, newError]) (by simp [objectType, newError])
  · exact (c4_statement_sequencing.2.2.2.2 [.varStatement "x" (.integerLiteral 1)]
      emptyEnv (emptyEnv.set "x" (some (.integerO 1)))
      (@Threads.cons (.varStatement "x" (.integerLiteral 1)) [] emptyEnv
        (emptyEnv.set "x" (some (.integerO 1))) (emptyEnv.set "x" (some (.integerO 1)))
        (some (.integerO 1)) (by simp [goEval, isError, objectType]) (by simp) (by simp)
        (Threads.nil _))
      (.expressionStatement (.integerLiteral 2)) [] none none).1

end Interp

namespace Lex

/-! Lexer helper lemmas. -/

theorem readStringLoop_lineNumber (start : Nat) (l : Lexer) :
    (readStringLoop start l).1.lineNumber = l.rowNum := by
  induction l using readStringLoop.induct start with
  | case1 l h => rw [readStringLoop, if_pos h]; rfl
  | case2 l h1 h2 => rw [readStringLoop, if_neg h1, dif_pos h2]; rfl

  | case3 l h1 h2 ih =>
    rw [readStringLoop, if_neg h1, dif_neg h2]
    exact ih

theorem drop_pos_cons (l : Lexer) (h : l.position < l.input.length) :
    l.input.drop l.position = l.ch :: l.input.drop (l.position + 1) := by
  have := List.drop_eq_getElem_cons h
  rw [this]
  congr 1
  rw [Lexer.ch, List.getD_eq_getElem _ _ h]

theorem hasClose_tail {c : Char} {rest : List Char} (h : hasClose (c :: rest) = false) :
    hasClose rest = false := by
  cases rest with
  | nil => rfl
  | cons c2 r =>
    rw [hasClose] at h
    simp only [Bool.or_eq_false_iff] at h
    exact h.2

theorem skipMultiLoop_unterminated_aux : ∀ (m : Nat) (l : Lexer),
    l.input.length - l.position ≤ m → charNull ∉ l.input →
    hasClose (l.input.drop l.position) = false →
    (skipMultiLoop l).1 =
      { type := token.ILLEGAL
        literal := "FATAL ERROR: comment not terminated at line: " ++
          toString (l.rowNum + countNL (l.input.drop l.position)) ++ "\n\n"
        lineNumber := l.rowNum + countNL (l.input.drop l.position) } := by
  intro m
  induction m with
  | zero =>
    intro l hm hnn hnc
    have hge : l.input.length ≤ l.position := by omega
    have hch : l.ch = charNull := List.getD_eq_default _ _ hge
    have hdrop : l.input.drop l.position = [] := List.drop_eq_nil_of_le hge
    rw [skipMultiLoop, dif_pos hch, hdrop]
    simp [countNL]
  | succ m ih =>
    intro l hm hnn hnc
    by_cases h0 : l.ch = charNull
    · have hge : l.input.length ≤ l.position := by
        by_contra hlt
        exact hnn (h0 ▸ (by
          rw [Lexer.ch, List.getD_eq_getElem _ _ (by omega)]
          exact List.getElem_mem _))
      have hdrop : l.input.drop l.position = [] := List.drop_eq_nil_of_le hge
      rw [skipMultiLoop, dif_pos h0, hdrop]
      simp [countNL]
    · have hlt : l.position < l.input.length := pos_lt_of_ch l h0
      have hdrop := drop_pos_cons l hlt
      by_cases h1 : l.ch = charStar ∧ l.peekChar = charSlash
      · exfalso
        have hlt2 : l.position + 1 < l.input.length := by
          by_contra hge2
          have : l.peekChar = charNull := List.getD_eq_default _ _ (by omega)
          rw [this] at h1
          exact absurd h1.2 (by decide)
        have hdrop2 : l.input.drop (l.position + 1) =
            l.input[l.position + 1] :: l.input.drop (l.position + 2) := by
          have := List.drop_eq_getElem_cons hlt2
          rw [this]
        have hpeek : l.input[l.position + 1] = charSlash := by
          have : l.peekChar = l.input[l.position + 1] := by
            rw [Lexer.peekChar, List.getD_eq_getElem _ _ hlt2]
          rw [← this, h1.2]
        rw [hdrop, hdrop2, hpeek, h1.1] at hnc
        rw [hasClose] at hnc
        simp at hnc
      · rw [skipMultiLoop, dif_neg h0, dif_neg h1]
        have harg : ({ l with
            position := l.position + 1
            rowNum := (if l.ch = charNL ∨ l.ch = charCR then l.rowNum + 1 else l.rowNum) } :
              Lexer).input = l.input := rfl
        rw [ih _ (by simp only [harg]; simp; omega) (by rw [harg]; exact hnn)
          (by
            show hasClose (l.input.drop (l.position + 1)) = false
            rw [hdrop] at hnc
            exact hasClose_tail hnc)]
        have hcount : countNL (l.input.drop l.position) =
            (if l.ch = charNL ∨ l.ch = charCR then 1 else 0) +
              countNL (l.input.drop (l.position + 1)) := by
          rw [hdrop, countNL]
        rw [show (({ l with
            position := l.position + 1
            rowNum := (if l.ch = charNL ∨ l.ch = charCR then l.rowNum + 1 else l.rowNum) } :
              Lexer)).rowNum = (if l.ch = charNL ∨ l.ch = charCR then l.rowNum + 1 else l.rowNum)
          from rfl]
        rw [hcount]
        split_ifs <;> simp [Nat.add_assoc, Nat.add_comm, Nat.add_left_comm]

theorem notWs_of_ch {l : Lexer} {c : Char} (h : l.ch = c)
    (hs : c ≠ charSpace) (ht : c ≠ charTab) (hn : c ≠ charNL) (hr : c ≠ charCR) :
    skipWhitespace l = l := by
  refine skipWhitespace_id l ?_
  rw [h]
  rintro (hc | hc | hc | hc)
  exacts [hs hc, ht hc, hn hc, hr hc]

theorem ch_ne {c d : Char} (hcd : (c = d) = False) {l : Lexer} (h : l.ch = c) : ¬l.ch = d := by
  rw [h]
  simp [hcd]

theorem nextToken_quote (l : Lexer) (h : l.ch = charQuote) : nextToken l = readString l := by
  rw [nextToken]
  have hid : skipWhitespace l = l :=
    notWs_of_ch h (by decide) (by decide) (by decide) (by decide)
  simp only [hid]
  rw [if_neg (ch_ne (by decide) h), if_neg (ch_ne (by decide) h), if_neg (ch_ne (by decide) h),
    if_neg (ch_ne (by decide) h), if_neg (ch_ne (by decide) h), dif_neg (ch_ne (by decide) h),
    if_neg (ch_ne (by decide) h), if_neg (ch_ne (by decide) h), if_neg (ch_ne (by decide) h),
    if_neg (ch_ne (by decide) h), if_neg (ch_ne (by decide) h), if_neg (ch_ne (by decide) h),
    if_neg (ch_ne (by decide) h), if_neg (ch_ne (by decide) h), if_neg (ch_ne (by decide) h),
    if_neg (ch_ne (by decide) h), if_neg (ch_ne (by decide) h), if_pos h]

theorem nextToken_comment (l : Lexer) (h : l.ch = charSlash) (hp : l.peekChar = charStar) :
    nextToken l = skipMultipleLineComment l ∧
    skipMultipleLineComment l = skipMultiLoop l.readChar.readChar := by
  constructor
  · rw [nextToken]
    have hid : skipWhitespace l = l :=
      notWs_of_ch h (by decide) (by decide) (by decide) (by decide)
    simp only [hid]
    rw [if_neg (ch_ne (by decide) h), if_neg (ch_ne (by decide) h),
      if_neg (ch_ne (by decide) h), if_neg (ch_ne (by decide) h),
      if_neg (ch_ne (by decide) h), dif_pos h,
      if_neg (by rw [hp]; decide), if_pos hp]
  · rw [skipMultipleLineComment]

theorem isLetter_ne {c d : Char} (hc : isLetter c = true) (hd : isLetter d = false) : c ≠ d := by
  intro he
  rw [he, hd] at hc
  cases hc

theorem nextToken_ident (l : Lexer) (hL : isLetter l.ch = true) :
    nextToken l =
      ({ type := LookUpIdent (readIdent l).1, literal := (readIdent l).1,
         lineNumber := (readIdent l).2.rowNum }, (readIdent l).2) := by
  rw [nextToken]
  have hid : skipWhitespace l = l := by
    refine skipWhitespace_id l ?_
    rintro (hc | hc | hc | hc) <;> rw [hc] at hL <;> exact absurd hL (by decide)
  simp only [hid]
  rw [if_neg (isLetter_ne hL (by decide)), if_neg (isLetter_ne hL (by decide)),
    if_neg (isLetter_ne hL (by decide)), if_neg (isLetter_ne hL (by decide)),
    if_neg (isLetter_ne hL (by decide)), dif_neg (isLetter_ne hL (by decide)),
    if_neg (isLetter_ne hL (by decide)), if_neg (isLetter_ne hL (by decide)),
    if_neg (isLetter_ne hL (by decide)), if_neg (isLetter_ne hL (by decide)),
    if_neg (isLetter_ne hL (by decide)), if_neg (isLetter_ne hL (by decide)),
    if_neg (isLetter_ne hL (by decide)), if_neg (isLetter_ne hL (by decide)),
    if_neg (isLetter_ne hL (by decide)), if_neg (isLetter_ne hL (by decide)),
    if_neg (isLetter_ne hL (by decide)), if_neg (isLetter_ne hL (by decide)),
    if_neg (isLetter_ne hL (by decide)), if_pos hL]

theorem isDigit_not_isLetter {c : Char} (hd : isDigit c = true) : isLetter c = false := by
  simp only [isDigit, Bool.and_eq_true, decide_eq_true_eq] at hd
  simp only [isLetter, Bool.or_eq_false_iff, Bool.and_eq_false_iff]
  refine ⟨⟨?_, ?_⟩, ?_⟩ <;> simp only [decide_eq_false_iff_not, beq_eq_false_iff_ne] <;> omega

theorem isDigit_ne {c d : Char} (hc : isDigit c = true) (hd : isDigit d = false) : c ≠ d := by
  intro he
  rw [he, hd] at hc
  cases hc

theorem nextToken_number (l : Lexer) (hD : isDigit l.ch = true) :
    nextToken l =
      ({ type := token.INT, literal := (readNumber l).1,
         lineNumber := (readNumber l).2.rowNum }, (readNumber l).2) := by
  rw [nextToken]
  have hid : skipWhitespace l = l := by
    refine skipWhitespace_id l ?_
    rintro (hc | hc | hc | hc) <;> rw [hc] at hD <;> exact absurd hD (by decide)
  simp only [hid]
  rw [if_neg (isDigit_ne hD (by decide)), if_neg (isDigit_ne hD (by decide)),
    if_neg (isDigit_ne hD (by decide)), if_neg (isDigit_ne hD (by decide)),
    if_neg (isDigit_ne hD (by decide)), dif_neg (isDigit_ne hD (by decide)),
    if_neg (isDigit_ne hD (by decide)), if_neg (isDigit_ne hD (by decide)),
    if_neg (isDigit_ne hD (by decide)), if_neg (isDigit_ne hD (by decide)),
    if_neg (isDigit_ne hD (by decide)), if_neg (isDigit_ne hD (by decide)),
    if_neg (isDigit_ne hD (by decide)), if_neg (isDigit_ne hD (by decide)),
    if_neg (isDigit_ne hD (by decide)), if_neg (isDigit_ne hD (by decide)),
    if_neg (isDigit_ne hD (by decide)), if_neg (isDigit_ne hD (by decide)),
    if_neg (isDigit_ne hD (by decide)),
    if_neg (by rw [isDigit_not_isLetter hD]; exact Bool.false_ne_true),
    if_pos hD]


theorem readIdentLoop_inv (l : Lexer) :
    (readIdentLoop l).input = l.input ∧ l.position ≤ (readIdentLoop l).position := by
  induction l using readIdentLoop.induct with
  | case1 l h ih =>
    rw [readIdentLoop, dif_pos h]
    exact ⟨ih.1.trans rfl, le_trans (Nat.le_succ _) ih.2⟩
  | case2 l h => rw [readIdentLoop, dif_neg h]; exact ⟨rfl, le_refl _⟩

theorem readIdentLoop_stop (l : Lexer) : isLetter (readIdentLoop l).ch = false := by
  induction l using readIdentLoop.induct with
  | case1 l h ih => rw [readIdentLoop, dif_pos h]; exact ih
  | case2 l h => rw [readIdentLoop, dif_neg h]; exact Bool.not_eq_true _ ▸ (by simpa using h)

theorem readIdent_letters (l : Lexer) : (readIdent l).1.toList.all isLetter = true := by
  show ((l.input.drop l.position).take ((readIdentLoop l).position - l.position)).all
    isLetter = true
  induction l using readIdentLoop.induct with
  | case1 l h ih =>
    have hlt : l.position < l.input.length := by
      refine pos_lt_of_ch l fun he => ?_
      rw [he] at h
      exact absurd h (by decide)
    have hstep : readIdentLoop l = readIdentLoop l.readChar := by
      rw [readIdentLoop, dif_pos h]
    have hadv : l.position + 1 ≤ (readIdentLoop l.readChar).position :=
      (readIdentLoop_inv l.readChar).2
    rw [hstep, drop_pos_cons l hlt]
    have hcount : (readIdentLoop l.readChar).position - l.position =
        ((readIdentLoop l.readChar).position - (l.position + 1)) + 1 := by omega
    rw [hcount, List.take_succ_cons, List.all_cons, h]
    simpa using ih
  | case2 l h =>
    rw [readIdentLoop, dif_neg h, Nat.sub_self, List.take_zero]
    rfl

theorem lookUpIdent_default (s : String) (h1 : s ≠ "fun") (h2 : s ≠ "const") (h3 : s ≠ "true")
    (h4 : s ≠ "false") (h5 : s ≠ "if") (h6 : s ≠ "else") (h7 : s ≠ "return") :
    LookUpIdent s = token.IDENT := by
  rw [LookUpIdent, if_neg h1, if_neg h2, if_neg (by rintro (h | h); exacts [h3 h, h4 h]),
    if_neg h5, if_neg h6, if_neg h7]

set_option maxHeartbeats 2000000 in
theorem c9_concrete1 :
    (nextToken (lexerNew [Char.ofNat 97, Char.ofNat 98, Char.ofNat 99, Char.ofNat 49])).1 =
      { type := token.IDENT, literal := "abc", lineNumber := 1 } ∧
    (nextToken (nextToken
        (lexerNew [Char.ofNat 97, Char.ofNat 98, Char.ofNat 99, Char.ofNat 49])).2).1 =
      { type := token.INT, literal := "1", lineNumber := 1 } := by
  constructor <;>
    simp +decide [nextToken, skipWhitespace, readIdent, readIdentLoop, readNumber,
      readNumberLoop, sliceStr, LookUpIdent, lexerNew, Lexer.ch, Lexer.peekChar,
      Lexer.readChar, List.getD, isLetter, isDigit, newToken,
      charNull, charTab, charNL, charCR, charSpace, charBang, charQuote, charLParen,
      charRParen, charStar, charPlus, charComma, charMinus, charSlash, charColon,
      charSemicolon, charLt, charEq, charGt, charLBracket, charRBracket, charLBrace,
      charRBrace, token.IDENT, token.INT]

set_option maxHeartbeats 2000000 in
theorem c9_concrete2 :
    (nextToken (lexerNew [Char.ofNat 105, Char.ofNat 102, Char.ofNat 49])).1 =
      { type := token.IF, literal := "if", lineNumber := 1 } ∧
    token.IF ≠ token.IDENT ∧
    (nextToken (nextToken (lexerNew [Char.ofNat 105, Char.ofNat 102, Char.ofNat 49])).2).1 =
      { type := token.INT, literal := "1", lineNumber := 1 } := by
  refine ⟨?_, by decide, ?_⟩ <;>
    simp +decide [nextToken, skipWhitespace, readIdent, readIdentLoop, readNumber,
      readNumberLoop, sliceStr, LookUpIdent, lexerNew, Lexer.ch, Lexer.peekChar,
      Lexer.readChar, List.getD, isLetter, isDigit, newToken,
      charNull, charTab, charNL, charCR, charSpace, charBang, charQuote, charLParen,
      charRParen, charStar, charPlus, charComma, charMinus, charSlash, charColon,
      charSemicolon, charLt, charEq, charGt, charLBracket, charRBracket, charLBrace,
      charRBrace, token.IDENT, token.INT, token.IF]

/-- C5 counterexample: lexing the unterminated block comment `/*\n` yields
an "illegal" token whose carried line number is 2 — the line where the end
of input was reached — although scanning of the comment began on line 1
(the fresh lexer's row number). -/
theorem c5_counterexample :
    (nextToken (lexerNew [charSlash, charStar, charNL])).1 =
      { type := token.ILLEGAL
        literal := "FATAL ERROR: comment not terminated at line: 2\n\n"
        lineNumber := 2 } ∧
    (lexerNew [charSlash, charStar, charNL]).rowNum = 1 := by
  constructor
  · simp +decide [nextToken, skipMultipleLineComment, skipMultiLoop, skipWhitespace, lexerNew,
      Lexer.ch, Lexer.peekChar, Lexer.readChar, List.getD, charSlash, charStar, charNL,
      charNull, charSpace, charTab, charEq, charPlus, charMinus, charBang, charLt, charGt,
      charComma, charSemicolon, charLParen, charRParen, charLBrace, charRBrace, charLBracket,
      charRBracket, charColon, charQuote, charCR, token.ILLEGAL]
  · rfl

/-- C5 (amended): an unterminated string literal yields an "illegal" token
carrying the line number where scanning of the string began (`readString`
never touches `RowNum`, so every token it returns carries the start line);
an unterminated block comment instead yields an "illegal" token carrying
the line number at which the end of input was reached — the start line plus
the number of line breaks inside the comment — because
`skipMultipleLineComment` increments `RowNum` while scanning.  The `"` and
`/*` dispatch steps of `NextToken` are included. -/
theorem c5_unterminated_line_numbers :
    (∀ (start : Nat) (l : Lexer), (readStringLoop start l).1.lineNumber = l.rowNum) ∧
    (∀ l : Lexer, l.ch = charQuote →
      nextToken l = readString l ∧ readString l = readStringLoop (l.position + 1) l) ∧
    (∀ l : Lexer, charNull ∉ l.input → hasClose (l.input.drop l.position) = false →
      (skipMultiLoop l).1 =
        { type := token.ILLEGAL
          literal := "FATAL ERROR: comment not terminated at line: " ++
            toString (l.rowNum + countNL (l.input.drop l.position)) ++ "\n\n"
          lineNumber := l.rowNum + countNL (l.input.drop l.position) }) ∧
    (∀ l : Lexer, l.ch = charSlash → l.peekChar = charStar →
      nextToken l = skipMultipleLineComment l ∧
      skipMultipleLineComment l = skipMultiLoop l.readChar.readChar) := by
  refine ⟨readStringLoop_lineNumber, ?_, ?_, nextToken_comment⟩
  · intro l h
    exact ⟨nextToken_quote l h, rfl⟩
  · intro l hnn hnc
    exact skipMultiLoop_unterminated_aux (l.input.length - l.position) l (le_refl _) hnn hnc

/-- C5 witness: `c5_unterminated_line_numbers` at concrete inputs: the
unterminated string `"a` (scanning begins and fails on line 1, the token
carries line 1), the `"`-dispatch, and an unterminated comment body with
one line break (the token carries line 2 = 1 + 1). -/
theorem c5_unterminated_line_numbers_witness :
    (readStringLoop 1 (lexerNew [charQuote, Char.ofNat 97])).1.lineNumber = 1 ∧
    nextToken (lexerNew [charQuote, Char.ofNat 97]) =
      readString (lexerNew [charQuote, Char.ofNat 97]) ∧
    (skipMultiLoop { input := [charSlash, charStar, charNL], position := 2, rowNum := 1 }).1.lineNumber = 2 := by
  refine ⟨?_, ?_, ?_⟩
  · exact c5_unterminated_line_numbers.1 1 _
  · exact (c5_unterminated_line_numbers.2.1 _ (by decide)).1
  · rw [c5_unterminated_line_numbers.2.2.1
      { input := [charSlash, charStar, charNL], position := 2, rowNum := 1 }
      (by decide) (by decide)]
    decide

/-- C9 counterexample: for the input `if1` the letter prefix is the keyword
`if`, so the lexer produces an `IF`-kind token (not an identifier token)
followed by the integer token `1`; the claim's universally quantified
"identifier token for the letter prefix" is therefore false as stated. -/
theorem c9_counterexample :
    (nextToken (lexerNew [Char.ofNat 105, Char.ofNat 102, Char.ofNat 49])).1 =
      { type := token.IF, literal := "if", lineNumber := 1 } ∧
    token.IF ≠ token.IDENT ∧
    (nextToken (nextToken (lexerNew [Char.ofNat 105, Char.ofNat 102, Char.ofNat 49])).2).1 =
      { type := token.INT, literal := "1", lineNumber := 1 } :=
  ⟨c9_concrete2.1, c9_concrete2.2.1, c9_concrete2.2.2⟩

/-- C9 (amended): identifier scanning consumes exactly a maximal run of
ASCII letters and underscore (the produced literal contains only such
characters and the scan stops at the first character that is not one), so
a letter run immediately followed by digits lexes as one word token — an
identifier token unless the run is exactly one of the keywords `fun`,
`const`, `true`, `false`, `if`, `else`, `return` — followed by a separate
integer token; `abc1` lexes as the identifier `abc` then the integer `1`,
and no identifier token ever contains a digit. -/
theorem c9_identifier_scanning :
    (∀ l : Lexer, (readIdent l).1.toList.all isLetter = true) ∧
    (∀ l : Lexer, isLetter (readIdentLoop l).ch = false) ∧
    (∀ l : Lexer, isLetter l.ch = true →
      nextToken l =
        ({ type := LookUpIdent (readIdent l).1, literal := (readIdent l).1
           lineNumber := (readIdent l).2.rowNum }, (readIdent l).2)) ∧
    (∀ l : Lexer, isDigit l.ch = true →
      nextToken l =
        ({ type := token.INT, literal := (readNumber l).1
           lineNumber := (readNumber l).2.rowNum }, (readNumber l).2)) ∧
    (∀ s : String, s ≠ "fun" → s ≠ "const" → s ≠ "true" → s ≠ "false" → s ≠ "if" →
      s ≠ "else" → s ≠ "return" → LookUpIdent s = token.IDENT) ∧
    ((nextToken (lexerNew [Char.ofNat 97, Char.ofNat 98, Char.ofNat 99, Char.ofNat 49])).1 =
      { type := token.IDENT, literal := "abc", lineNumber := 1 } ∧
     (nextToken (nextToken
         (lexerNew [Char.ofNat 97, Char.ofNat 98, Char.ofNat 99, Char.ofNat 49])).2).1 =
      { type := token.INT, literal := "1", lineNumber := 1 }) :=
  ⟨readIdent_letters, readIdentLoop_stop, nextToken_ident, nextToken_number,
    lookUpIdent_default, c9_concrete1⟩

/-- C9 witness: `c9_identifier_scanning` at concrete inputs: dispatch on a
letter, dispatch on a digit, and the keyword-table default on `abc`. -/
theorem c9_identifier_scanning_witness :
    nextToken (lexerNew [Char.ofNat 120]) =
      ({ type := LookUpIdent (readIdent (lexerNew [Char.ofNat 120])).1
         literal := (readIdent (lexerNew [Char.ofNat 120])).1
         lineNumber := (readIdent (lexerNew [Char.ofNat 120])).2.rowNum },
        (readIdent (lexerNew [Char.ofNat 120])).2) ∧
    nextToken (lexerNew [Char.ofNat 49]) =
      ({ type := token.INT, literal := (readNumber (lexerNew [Char.ofNat 49])).1
         lineNumber := (readNumber (lexerNew [Char.ofNat 49])).2.rowNum },
        (readNumber (lexerNew [Char.ofNat 49])).2) ∧
    LookUpIdent "abc" = token.IDENT := by
  refine ⟨?_, ?_, ?_⟩
  · exact c9_identifier_scanning.2.2.1 _ (by decide)
  · exact c9_identifier_scanning.2.2.2.1 _ (by decide)
  · exact c9_identifier_scanning.2.2.2.2.1 "abc" (by decide) (by decide) (by decide)
      (by decide) (by decide) (by decide) (by decide)

end Lex
